import Mathlib

/-
Verification of the streaming event consumer / response-state reconciler of the
Cortex agents demo application, as a shallow embedding in Lean 4.

The embedding follows the source modules:
  - modules/api/cortex_integration.py   (stream_events_realtime and its helpers)
  - modules/citations/processor.py      (citation numbering and text resolution)
  - modules/citations/collector.py      (streaming citation collection)
  - modules/citations/display.py        (post-completion citation display)
  - modules/config/session_state.py     (SessionStateManager request/thread scoping)

Python dicts are modelled as association lists in insertion order (matching
dict iteration order), or as total functions when only pointwise lookup is
needed.  Streamlit placeholders are modelled by a rendered-content map keyed by
(request_id, content_index).
-/

namespace CortexSpec

/-! ## Association lists (Python dict semantics: insertion order, update in place) -/

def alookup {α : Type} [DecidableEq α] {β : Type} : List (α × β) → α → Option β
  | [], _ => none
  | (k, v) :: t, x => if x = k then some v else alookup t x

def aset {α : Type} [DecidableEq α] {β : Type} : List (α × β) → α → β → List (α × β)
  | [], x, v => [(x, v)]
  | (k, w) :: t, x, v => if x = k then (k, v) :: t else (k, w) :: aset t x v

theorem alookup_aset {α : Type} [DecidableEq α] {β : Type}
    (b : List (α × β)) (k k' : α) (v : β) :
    alookup (aset b k v) k' = if k' = k then some v else alookup b k' := by
  induction b with
  | nil =>
    by_cases h : k' = k <;> simp [aset, alookup, h]
  | cons hd t ih =>
    obtain ⟨k₀, w⟩ := hd
    by_cases hk : k = k₀
    · subst hk
      by_cases h : k' = k <;> simp [aset, alookup, h]
    · by_cases h : k' = k₀
      · subst h
        have hne : ¬(k' = k) := fun he => hk he.symm
        simp [aset, alookup, hk, hne]
      · simp [aset, alookup, hk, h, ih]

theorem alookup_append {α : Type} [DecidableEq α] {β : Type}
    (l₁ l₂ : List (α × β)) (x : α) :
    alookup (l₁ ++ l₂) x =
      match alookup l₁ x with
      | some v => some v
      | none => alookup l₂ x := by
  induction l₁ with
  | nil => simp [alookup]
  | cons hd t ih =>
    obtain ⟨k, v⟩ := hd
    by_cases h : x = k <;> simp [alookup, h, ih]

/-! ## String utilities

All string helpers are implemented structurally over the character list so
that concrete runs of the model reduce inside the kernel. -/

/-- If `pre` is a prefix of `cs`, return the remainder. -/
def stripPre : List Char → List Char → Option (List Char)
  | [], cs => some cs
  | _ :: _, [] => none
  | p :: ps, c :: cs => if c = p then stripPre ps cs else none

def containsSubAux (pat : List Char) : Nat → List Char → Bool
  | _, [] => (stripPre pat []).isSome
  | 0, _ => false
  | fuel + 1, c :: rest =>
    if (stripPre pat (c :: rest)).isSome then true
    else containsSubAux pat fuel rest

/-- The Python `pat in s` substring test. -/
def containsSub (s pat : String) : Bool :=
  containsSubAux pat.data (s.length + 1) s.data

/-- `str.lower()`. -/
def lowerStr (s : String) : String := String.mk (s.data.map Char.toLower)

/-- `str.strip()`: whitespace removed from both ends. -/
def trimStr (s : String) : String :=
  String.mk
    (((s.data.dropWhile Char.isWhitespace).reverse.dropWhile Char.isWhitespace).reverse)

/-- `str.startswith(pre)`. -/
def startsWithStr (s pre : String) : Bool := (stripPre pre.data s.data).isSome

def replaceAllAux (pat repl : List Char) : Nat → List Char → List Char
  | 0, cs => cs
  | _, [] => []
  | fuel + 1, c :: rest =>
    match stripPre pat (c :: rest) with
    | some remainder => repl ++ replaceAllAux pat repl fuel remainder
    | none => c :: replaceAllAux pat repl fuel rest

/-- Python `str.replace`: replace every (leftmost, non-overlapping) occurrence
of `pat` by `repl`. -/
def replaceAll (s pat repl : String) : String :=
  String.mk (replaceAllAux pat.data repl.data s.length s.data)

/-- Reserved citation-source prefix as used throughout the source (`cs_`). -/
def csMark : String := "cs_"

def citeOpenTag : String := "<cite>"

def citeCloseTag : String := "</cite>"

/-- Character class of the regex `[a-f0-9-]` in the cite-tag pattern
`<cite>(cs_[a-f0-9-]+)</cite>` of modules/citations/processor.py. -/
def citeIdChar (c : Char) : Bool :=
  c.isDigit || (decide ('a' ≤ c) && decide (c ≤ 'f')) || decide (c = '-')

/-- Try to match the full cite-tag pattern at the head of `cs`; on success
return the captured group (`cs_` plus the id run) and the remainder after the
closing tag.  Mirrors one match of the regex
`<cite>(cs_[a-f0-9-]+)</cite>` (the id run is greedy and cannot contain the
`<` that opens the closing tag, so maximal-run-then-check is equivalent). -/
def matchCiteAt (cs : List Char) : Option (String × List Char) :=
  match stripPre (citeOpenTag ++ csMark).data cs with
  | none => none
  | some afterTag =>
    let run := afterTag.takeWhile citeIdChar
    let rest := afterTag.dropWhile citeIdChar
    if run.isEmpty then none
    else
      match stripPre citeCloseTag.data rest with
      | none => none
      | some rem => some (String.mk (csMark.data ++ run), rem)

/-- Fuel-bounded scan; fuel is initialised to the string length, which
dominates the number of scanning steps because each step consumes at least
one character. -/
def citeMatchesAux : Nat → List Char → List String
  | 0, _ => []
  | _, [] => []
  | fuel + 1, c :: rest =>
    match matchCiteAt (c :: rest) with
    | some (id, remainder) => id :: citeMatchesAux fuel remainder
    | none => citeMatchesAux fuel rest

/-- `re.findall` of the cite-tag pattern over a text, leftmost, non-overlapping,
in order of appearance, duplicates preserved. -/
def citeMatches (s : String) : List String := citeMatchesAux s.length s.data

/-! ## Citation numbering (modules/citations/processor.py and the
request-scoped citation state of SessionStateManager) -/

structure CitationData where
  citeId : String
  docId : String
  docTitle : String
deriving DecidableEq

/-- The request-scoped citation state:
`tool_state.current_request_citation_mapping` (insertion-ordered dict from
citation source-id to display number) and
`tool_state.current_request_citation_counter`. -/
structure CitState where
  mapping : List (String × Nat)
  counter : Nat
deriving DecidableEq

/-- `SessionStateManager.reset_request_citations`: mapping cleared, counter
back to 0 so the next assignment yields 1. -/
def resetRequestCitations : CitState := ⟨[], 0⟩

/-- `get_or_assign_citation_number` (processor.py): reuse the request-scoped
mapping when present, otherwise increment the request counter and record the
new mapping. -/
def getOrAssignCitationNumber (cit : CitState) (sid : String) : CitState × Nat :=
  match alookup cit.mapping sid with
  | some n => (cit, n)
  | none =>
    let n := cit.counter + 1
    (⟨cit.mapping ++ [(sid, n)], n⟩, n)

/-- The citation-state component of a sequence of resolutions. -/
def assignList (cit : CitState) (ids : List String) : CitState :=
  ids.foldl (fun c i => (getOrAssignCitationNumber c i).1) cit

theorem getOrAssign_of_some {cit : CitState} {x : String} {n : Nat}
    (h : alookup cit.mapping x = some n) :
    getOrAssignCitationNumber cit x = (cit, n) := by
  simp [getOrAssignCitationNumber, h]

theorem getOrAssign_mono {cit : CitState} {x y : String} {n : Nat}
    (h : alookup cit.mapping y = some n) :
    alookup (getOrAssignCitationNumber cit x).1.mapping y = some n := by
  unfold getOrAssignCitationNumber
  cases hx : alookup cit.mapping x with
  | some m => simpa [hx] using h
  | none =>
    simp only [hx]
    rw [alookup_append]
    simp [h]

theorem getOrAssign_self (cit : CitState) (x : String) :
    alookup (getOrAssignCitationNumber cit x).1.mapping x
      = some (getOrAssignCitationNumber cit x).2 := by
  unfold getOrAssignCitationNumber
  cases hx : alookup cit.mapping x with
  | some m => simp [hx]
  | none =>
    simp only [hx]
    rw [alookup_append]
    simp [hx, alookup]

theorem getOrAssign_none_of_ne {cit : CitState} {x y : String}
    (h : alookup cit.mapping y = none) (hxy : y ≠ x) :
    alookup (getOrAssignCitationNumber cit x).1.mapping y = none := by
  unfold getOrAssignCitationNumber
  cases hx : alookup cit.mapping x with
  | some m => simpa [hx] using h
  | none =>
    simp only [hx]
    rw [alookup_append]
    simp [h, alookup, hxy]

theorem assignList_mono {cit : CitState} {y : String} {n : Nat} (ids : List String)
    (h : alookup cit.mapping y = some n) :
    alookup (assignList cit ids).mapping y = some n := by
  induction ids generalizing cit with
  | nil => simpa [assignList]
  | cons i t ih =>
    simp only [assignList, List.foldl_cons]
    exact ih (getOrAssign_mono h)

theorem assignList_covers {cit : CitState} {x : String} (ids : List String)
    (h : x ∈ ids) :
    (alookup (assignList cit ids).mapping x).isSome := by
  induction ids generalizing cit with
  | nil => cases h
  | cons i t ih =>
    simp only [assignList, List.foldl_cons]
    rcases List.mem_cons.mp h with h1 | h2
    · subst h1
      cases ht : t with
      | nil =>
        simp [assignList, getOrAssign_self]
      | cons a b =>
        rw [← ht]
        have := getOrAssign_self cit x
        have := @assignList_mono (getOrAssignCitationNumber cit x).1 x
          (getOrAssignCitationNumber cit x).2 t this
        simp [assignList] at this ⊢
        rw [this]
        rfl
    · exact ih h2

theorem assignList_fixed {cit : CitState} (ids : List String)
    (h : ∀ x ∈ ids, (alookup cit.mapping x).isSome) :
    assignList cit ids = cit := by
  induction ids with
  | nil => rfl
  | cons i t ih =>
    have hi : (alookup cit.mapping i).isSome := h i (List.mem_cons_self i t)
    obtain ⟨n, hn⟩ := Option.isSome_iff_exists.mp hi
    simp only [assignList, List.foldl_cons, getOrAssign_of_some hn]
    exact ih fun x hx => h x (List.mem_cons_of_mem i hx)

theorem assignList_none {cit : CitState} {y : String} (ids : List String)
    (h : alookup cit.mapping y = none) (hy : y ∉ ids) :
    alookup (assignList cit ids).mapping y = none := by
  induction ids generalizing cit with
  | nil => simpa [assignList]
  | cons i t ih =>
    simp only [assignList, List.foldl_cons]
    have hyi : y ≠ i := fun he => hy (he ▸ List.mem_cons_self i t)
    exact ih (getOrAssign_none_of_ne h hyi) (fun hm => hy (List.mem_cons_of_mem i hm))

/-! ## Citation text resolution (`process_citation_ids_in_text`, processor.py) -/

def quoted (s : String) : String := "\"" ++ s ++ "\""

/-- The clickable replacement built for a resolved citation:
`<a href="{doc_id}" title="{doc_title}" target="_blank">[{n}]</a>`. -/
def citationLink (docId docTitle : String) (n : Nat) : String :=
  "<a href=" ++ quoted docId ++ " title=" ++ quoted docTitle
    ++ " target=" ++ quoted ("_blank") ++ ">[" ++ toString n ++ "]</a>"

/-- Metadata lookup performed per resolved id: the legacy
`tool_result_citations` store supplies `doc_id`/`doc_title`; a missing entry
degrades to the `#` link and a `Citation {n}` placeholder title. -/
def citationLinkFor (toolCitations : List (String × CitationData)) (n : Nat)
    (csId : String) : String :=
  match alookup toolCitations csId with
  | some d => citationLink d.docId d.docTitle n
  | none => citationLink ("#") ("Citation " ++ toString n) n

/-- One iteration of the cite-match loop: assign-or-reuse the request-scoped
number, then replace every occurrence of the full `<cite>id</cite>` tag with
the numbered link. -/
def processOneCitation (toolCitations : List (String × CitationData))
    (acc : CitState × String) (csId : String) : CitState × String :=
  let r := getOrAssignCitationNumber acc.1 csId
  let link := citationLinkFor toolCitations r.2 csId
  (r.1, replaceAll acc.2 (citeOpenTag ++ csId ++ citeCloseTag) link)

/-- `process_citation_ids_in_text`: fold the assignment/replacement step over
the cite-tag matches in order of appearance.  (The raw-`cs_` legacy pattern is
detected and logged by the source but deliberately not processed.) -/
def processCitationIdsInText (toolCitations : List (String × CitationData))
    (cit : CitState) (text : String) : CitState × String :=
  (citeMatches text).foldl (processOneCitation toolCitations) (cit, text)

theorem processText_cit_eq_assignList (toolCitations : List (String × CitationData))
    (cit : CitState) (text : String) :
    (processCitationIdsInText toolCitations cit text).1 = assignList cit (citeMatches text) := by
  unfold processCitationIdsInText assignList
  generalize citeMatches text = ids
  induction ids generalizing cit text with
  | nil => rfl
  | cons i t ih =>
    simp only [List.foldl_cons]
    exact ih _ _

theorem processText_fixed (toolCitations : List (String × CitationData))
    (cit : CitState) (text : String)
    (h : ∀ x ∈ citeMatches text, (alookup cit.mapping x).isSome) :
    (processCitationIdsInText toolCitations cit text).1 = cit := by
  rw [processText_cit_eq_assignList]
  exact assignList_fixed _ h

theorem processText_mono (toolCitations : List (String × CitationData))
    {cit : CitState} {y : String} {n : Nat} (text : String)
    (h : alookup cit.mapping y = some n) :
    alookup (processCitationIdsInText toolCitations cit text).1.mapping y = some n := by
  rw [processText_cit_eq_assignList]
  exact assignList_mono _ h

theorem processText_covers (toolCitations : List (String × CitationData))
    (cit : CitState) (text : String) {x : String} (h : x ∈ citeMatches text) :
    (alookup (processCitationIdsInText toolCitations cit text).1.mapping x).isSome := by
  rw [processText_cit_eq_assignList]
  exact assignList_covers _ h

theorem processText_none (toolCitations : List (String × CitationData))
    {cit : CitState} {y : String} (text : String)
    (h : alookup cit.mapping y = none) (hy : y ∉ citeMatches text) :
    alookup (processCitationIdsInText toolCitations cit text).1.mapping y = none := by
  rw [processText_cit_eq_assignList]
  exact assignList_none _ h hy

/-! ## Data model -/

/-- A content slot key: `(request_id, content_index)`. -/
abbrev ContentKey := String × Nat

/-- Rendered content of one Streamlit placeholder in the persistent
`st.session_state.streaming_content_map`. -/
inductive Rendered where
  | empty
  | markdown (s : String)
  | dataframe (rows : List (List String)) (cols : List String)
  | vegaChart (spec : String)
  | errText (s : String)
deriving DecidableEq

structure TableData where
  rows : List (List String)
  cols : List String
deriving DecidableEq

abbrev ChartSpec := String

/-- Search-result entry inside a tool-result content item
(`content_item['json']['search_results']`). -/
structure SearchRes where
  resId : String
  resDocId : String
  resDocTitle : String
deriving DecidableEq

/-- One element of a tool-result content array; absent string fields are
modelled as `""` (Python `.get` with falsy default). -/
structure ContentItem where
  itemId : String := ""
  docId : String := ""
  docTitle : String := ""
  jsonText : String := ""
  jsonSql : String := ""
  searchResults : List SearchRes := []
  jsonTable : Option TableData := none
deriving DecidableEq

/-- A complete tool result persisted thread-scoped under its `tool_use_id`. -/
structure StoredToolResult where
  name : String
  status : String
  content : List ContentItem
deriving DecidableEq

/-- A citation collected by `handle_streaming_citation` (collector.py) into
the legacy `streaming_citations` list and thread citations. -/
structure StreamCitation where
  docId : String
  docTitle : String
  searchResultId : String
  citationType : String
deriving DecidableEq

/-- Session-persistent state touched by the reconciler (the relevant slice of
`SessionStateManager` plus the persistent `streaming_content_map`).  Thread
scoped stores are modelled flat for the single active thread; `currentThreadId
= none` reproduces the source behaviour of skipping thread-scoped stores when
no thread is active. -/
structure SessionState where
  contentMapKeys : List ContentKey := []
  rendered : ContentKey → Rendered := fun _ => Rendered.empty
  currentThreadId : Option String := none
  currentResponseId : Option String := none
  citState : CitState := resetRequestCitations
  citationIdMapping : List (String × Nat) := []
  toolResultCitations : List (String × CitationData) := []
  threadToolCitations : List (String × CitationData) := []
  streamingCitations : List StreamCitation := []
  threadCitations : List StreamCitation := []
  threadToolResults : List (String × StoredToolResult) := []
  requestTables : String → List TableData := fun _ => []
  requestCharts : String → List ChartSpec := fun _ => []
  currentResponseTables : List TableData := []
  currentResponseCharts : List ChartSpec := []
  requestTableReferenced : String → Option Bool := fun _ => none
  requestToolIds : String → List String := fun _ => []
  tableReferencedLegacy : Bool := false
  referencedToolIdsLegacy : List String := []
  currentToolInputs : List String := []
  currentAssistantMessageId : Option Int := none

def emptySessionState : SessionState := {}

/-- Visible status of the single status container. -/
inductive StatusState where
  | running
  | complete
  | errorState
deriving DecidableEq

/-- Per-call local state of `stream_events_realtime`. -/
structure StreamState where
  session : SessionState
  currentRequestId : String
  buffers : List (ContentKey × String) := []
  botTextMessage : String := ""
  finalAgentReasoning : String := ""
  agentIsReevaluating : Bool := false
  highestContentIndex : Int := -1
  activeContentIndices : List Nat := []
  thinkingPlaceholders : List ContentKey := []
  thinkingRendered : ContentKey → String := fun _ => ""
  thinkingStatusSet : Bool := false
  statusCollapsedOnResponse : Bool := false
  statusState : StatusState := StatusState.running
  userErrors : List String := []
  chartsLocal : List ChartSpec := []
  warnedMissingTable : Bool := false

/-! ## Small state operations -/

/-- `defaultdict(str)` read. -/
def bufGet (b : List (ContentKey × String)) (k : ContentKey) : String :=
  (alookup b k).getD ""

/-- `buffers[key] += text` on a `defaultdict(str)`: update in place, or append
a fresh entry at the end (dict insertion order). -/
def bufAppend (b : List (ContentKey × String)) (k : ContentKey) (txt : String) :
    List (ContentKey × String) :=
  aset b k (bufGet b k ++ txt)

/-- `if key in buffers: buffers[key] = ""` in the re-evaluation clearing loop. -/
def bufClearIfPresent (b : List (ContentKey × String)) (k : ContentKey) :
    List (ContentKey × String) :=
  if (alookup b k).isSome then aset b k "" else b

def renderSet (r : ContentKey → Rendered) (k : ContentKey) (v : Rendered) :
    ContentKey → Rendered :=
  fun k' => if k' = k then v else r k'

def strMapSet (r : ContentKey → String) (k : ContentKey) (v : String) :
    ContentKey → String :=
  fun k' => if k' = k then v else r k'

/-- `get_or_create` half of `get_content_container`: record the key in the
persistent content map if it is new. -/
def addContentKey (ks : List ContentKey) (k : ContentKey) : List ContentKey :=
  if k ∈ ks then ks else ks ++ [k]

def addNatOnce (l : List Nat) (n : Nat) : List Nat :=
  if n ∈ l then l else l ++ [n]

/-- Python `a or b` for an optional/falsy request id
(`request_id or current_response_id or 'unknown'`). -/
def orElseStr (a : Option String) (b : String) : String :=
  match a with
  | some s => if s = "" then b else s
  | none => b

def targetRequest (requestId : Option String) (sess : SessionState) : String :=
  orElseStr requestId (orElseStr sess.currentResponseId ("unknown"))

def fnListSet {α : Type} (f : String → List α) (k : String) (v : List α) :
    String → List α :=
  fun x => if x = k then v else f x

def fnBoolSet (f : String → Option Bool) (k : String) (v : Bool) :
    String → Option Bool :=
  fun x => if x = k then some v else f x

/-! ## SessionStateManager operations (session_state.py) -/

/-- `add_tool_citation`: legacy store keyed by citation id. -/
def addToolCitation (sess : SessionState) (cid : String) (d : CitationData) :
    SessionState :=
  { sess with toolResultCitations := aset sess.toolResultCitations cid d }

/-- `add_thread_tool_citation`: stored only when a thread is active. -/
def addThreadToolCitation (sess : SessionState) (cid : String) (d : CitationData) :
    SessionState :=
  match sess.currentThreadId with
  | none => sess
  | some _ => { sess with threadToolCitations := aset sess.threadToolCitations cid d }

/-- `add_thread_tool_result`: stored only when a thread is active. -/
def addThreadToolResult (sess : SessionState) (toolUseId : String)
    (r : StoredToolResult) : SessionState :=
  match sess.currentThreadId with
  | none => sess
  | some _ => { sess with threadToolResults := aset sess.threadToolResults toolUseId r }

/-- `add_thread_citation` (collector side): list append when a thread is active. -/
def addThreadCitation (sess : SessionState) (c : StreamCitation) : SessionState :=
  match sess.currentThreadId with
  | none => sess
  | some _ => { sess with threadCitations := sess.threadCitations ++ [c] }

/-- `add_request_table`: appends to the request-scoped list under the resolved
target request id AND to the legacy session-wide list.  Neither list is
trimmed here. -/
def addRequestTable (sess : SessionState) (tbl : TableData)
    (requestId : Option String) : SessionState :=
  let target := targetRequest requestId sess
  { sess with
    requestTables := fnListSet sess.requestTables target (sess.requestTables target ++ [tbl])
    currentResponseTables := sess.currentResponseTables ++ [tbl] }

/-- `add_request_chart`: same shape as `add_request_table`. -/
def addRequestChart (sess : SessionState) (c : ChartSpec)
    (requestId : Option String) : SessionState :=
  let target := targetRequest requestId sess
  { sess with
    requestCharts := fnListSet sess.requestCharts target (sess.requestCharts target ++ [c])
    currentResponseCharts := sess.currentResponseCharts ++ [c] }

/-- `set_request_table_referenced`. -/
def setRequestTableReferenced (sess : SessionState) (b : Bool)
    (requestId : Option String) : SessionState :=
  let target := targetRequest requestId sess
  { sess with
    requestTableReferenced := fnBoolSet sess.requestTableReferenced target b
    tableReferencedLegacy := b }

/-- `add_request_tool_id`: append once per request, mirrored into the legacy
list. -/
def addRequestToolId (sess : SessionState) (toolId : String)
    (requestId : Option String) : SessionState :=
  let target := targetRequest requestId sess
  if toolId ∈ sess.requestToolIds target then sess
  else
    { sess with
      requestToolIds := fnListSet sess.requestToolIds target
        (sess.requestToolIds target ++ [toolId])
      referencedToolIdsLegacy :=
        if toolId ∈ sess.referencedToolIdsLegacy then sess.referencedToolIdsLegacy
        else sess.referencedToolIdsLegacy ++ [toolId] }

/-! ## Table-reference detection (`_detect_and_handle_table_references`) -/

def tableReferencePatterns : List String :=
  ["please find the requested table below",
   "here is the table",
   "the table below shows",
   "find the table below",
   "requested table below",
   "show the table",
   "display the table",
   "table that shows",
   "see the table",
   "table data",
   "show you the data in a table"]

def toolIdChar (c : Char) : Bool := c.isAlphanum || decide (c = '_')

/-- Try to match `tool result ID:\s*([a-zA-Z0-9_]+)` at the head of the
character list; on success return the captured id and the remainder. -/
def matchToolIdAt (cs : List Char) : Option (String × List Char) :=
  match stripPre ("tool result ID:").data cs with
  | none => none
  | some rest =>
    let rest2 := rest.dropWhile Char.isWhitespace
    let run := rest2.takeWhile toolIdChar
    if run.isEmpty then none
    else some (String.mk run, rest2.drop run.length)

def toolIdScanAux : Nat → List Char → List String
  | 0, _ => []
  | _, [] => []
  | fuel + 1, c :: rest =>
    match matchToolIdAt (c :: rest) with
    | some (id, remainder) => id :: toolIdScanAux fuel remainder
    | none => toolIdScanAux fuel rest

/-- `re.findall` of the tool-result-reference pattern. -/
def findToolIds (s : String) : List String := toolIdScanAux s.length s.data

/-- `_detect_and_handle_table_references`: runs on each raw text delta; both
the table-referenced flag and the tool-id list are keyed by the value of
`response_state.current_response_id` at that moment. -/
def detectAndHandleTableReferences (sess : SessionState) (textBuffer : String) :
    SessionState :=
  if textBuffer = "" ∨ (trimStr textBuffer).length < 5 then sess
  else
    let textLower := lowerStr textBuffer
    let sess :=
      if tableReferencePatterns.any (fun p => containsSub textLower p) then
        setRequestTableReferenced sess true sess.currentResponseId
      else sess
    (findToolIds textBuffer).foldl
      (fun acc tid => addRequestToolId acc tid acc.currentResponseId) sess

/-- `_handle_missing_table_references`: consults state keyed by
`current_response_id`, surfacing a soft warning when a table was referenced
but none stored for that id. -/
def handleMissingTableReferences (s : StreamState) : StreamState :=
  let sess := s.session
  let referenced :=
    match sess.currentResponseId with
    | some r => (sess.requestTableReferenced r).getD false
    | none => false
  let tablesCount :=
    match sess.currentResponseId with
    | some r => (sess.requestTables r).length
    | none => 0
  if referenced = true ∧ tablesCount = 0 then { s with warnedMissingTable := true } else s

/-! ## Completion-time citation pass

The loop at the `response.done` handler and its verbatim copy in the
post-loop fallback: for every buffer of the current request whose content
contains citation markup, resolve and re-render it.  The re-render goes
through `content_map[content_key]` by direct indexing, so a key that was
never given a container raises `KeyError` (caught by the outer handler). -/

def hasCitationMarkup (content : String) : Bool :=
  containsSub content csMark || containsSub content citeOpenTag

structure PassOut where
  cit : CitState
  rendered : ContentKey → Rendered
  processed : List (ContentKey × String)

inductive PassResult where
  | ok (o : PassOut)
  | keyErr (cit : CitState) (rendered : ContentKey → Rendered)
      (processed : List (ContentKey × String)) (k : ContentKey)

def citationPassGo (rid : String) (toolCitations : List (String × CitationData))
    (keys : List ContentKey) :
    CitState → (ContentKey → Rendered) → List (ContentKey × String) →
    List (ContentKey × String) → PassResult
  | cit, rend, acc, [] => .ok ⟨cit, rend, acc⟩
  | cit, rend, acc, (k, content) :: t =>
    if k.1 = rid ∧ content ≠ "" ∧ hasCitationMarkup content = true then
      let p := processCitationIdsInText toolCitations cit content
      if k ∈ keys then
        citationPassGo rid toolCitations keys p.1
          (renderSet rend k (Rendered.markdown p.2)) (acc ++ [(k, p.2)]) t
      else .keyErr p.1 rend acc k
    else citationPassGo rid toolCitations keys cit rend acc t

/-- The completion pass as invoked on a stream state (same arguments at the
`done` handler and at the fallback). -/
def donePass (s : StreamState) : PassResult :=
  citationPassGo s.currentRequestId s.session.toolResultCitations
    s.session.contentMapKeys s.session.citState s.session.rendered [] s.buffers

/-! ## Event model (the SSE taxonomy dispatched by `stream_events_realtime`) -/

inductive Event where
  /-- A frame whose data is not valid JSON: skipped with a warning. -/
  | malformedJson
  /-- `response.status`. -/
  | statusEv (statusType message : String)
  /-- `response.text.delta`. -/
  | textDelta (contentIndex : Nat) (text : String)
  /-- `response.text.annotation`; absent payload fields are `""`. -/
  | textAnnot (contentIndex : Nat) (searchResultId docTitle docId : String)
  /-- `response.thinking.delta`. -/
  | thinkingDelta (contentIndex : Nat) (text : String)
  /-- `response.thinking`. -/
  | thinkingFinal (contentIndex : Nat) (text : String)
  /-- `response.tool_use`. -/
  | toolUse (name toolUseId : String)
  /-- `response.tool_result`: `dataItems` is `event_data['data']['content']`
  (inline citation extraction), `items` is `event_data['content']`
  (thread storage, search-result extraction, embedded tables). -/
  | toolResult (toolUseId name status : String)
      (dataItems items : List ContentItem)
  /-- `response.tool_result.status`. -/
  | toolResultStatus (toolType status message : String)
  /-- `response.tool_result.analyst.delta`. -/
  | analystDelta (contentIndex : Nat) (delta : String)
  /-- `response.tool_result.sql_explanation.delta`. -/
  | sqlExplanationDelta (contentIndex : Nat) (delta : String)
  /-- `response.table`. -/
  | tableEv (contentIndex : Nat) (tbl : TableData)
  /-- `response.chart`; `none` models a chart_spec that fails `json.loads`. -/
  | chartEv (contentIndex : Nat) (spec : Option ChartSpec)
  /-- `response.error`. -/
  | responseError (message : String)
  /-- top-level `error`. -/
  | topLevelError (code message : String)
  /-- `execution_trace`. -/
  | executionTrace
  /-- `metadata`. -/
  | metadataEv (messageId : Option Int)
  /-- `response.done`. -/
  | done
  /-- any unknown event name: no-op branch. -/
  | unrecognized (name : String)
deriving DecidableEq

/-- Outcome of dispatching one event: continue the loop, break out of it, or
raise out of the dispatch (to the single outer handler), carrying the
partially mutated state in every case. -/
inductive StepResult where
  | next (s : StreamState)
  | stop (s : StreamState)
  | raised (s : StreamState) (msg : String)

def StepResult.state : StepResult → StreamState
  | .next s => s
  | .stop s => s
  | .raised s _ => s

/-! ## Event handlers -/

/-- The clearing block of the `response.text.delta` handler, executed when
`agent_is_reevaluating` is set and a strictly higher content index arrives:
empty the container, reset the buffer and drop the thinking placeholder of
every active content index of the current request, then reset the tracking
set, the accumulated text and the flag. -/
def clearStep (rid : String) (st : StreamState) (oldIdx : Nat) : StreamState :=
  let key : ContentKey := (rid, oldIdx)
  let sess := st.session
  let sess :=
    { sess with
      contentMapKeys := addContentKey sess.contentMapKeys key
      rendered := renderSet sess.rendered key Rendered.empty }
  let st := { st with session := sess, buffers := bufClearIfPresent st.buffers key }
  if key ∈ st.thinkingPlaceholders then
    { st with
      thinkingRendered := strMapSet st.thinkingRendered key ""
      thinkingPlaceholders := st.thinkingPlaceholders.erase key }
  else st

def clearOldContent (s : StreamState) : StreamState :=
  let s' := s.activeContentIndices.foldl (clearStep s.currentRequestId) s
  { s' with
    activeContentIndices := []
    botTextMessage := ""
    agentIsReevaluating := false }

/-- `response.text.delta` handler. -/
def stepTextDelta (s : StreamState) (idx : Nat) (txt : String) : StreamState :=
  let key : ContentKey := (s.currentRequestId, idx)
  let s :=
    if s.agentIsReevaluating = true ∧ (idx : Int) > s.highestContentIndex then
      clearOldContent s
    else s
  let s :=
    { s with
      highestContentIndex := max s.highestContentIndex (idx : Int)
      activeContentIndices := addNatOnce s.activeContentIndices idx }
  let s :=
    { s with
      buffers := bufAppend s.buffers key txt
      botTextMessage := s.botTextMessage ++ txt }
  let s := { s with session := detectAndHandleTableReferences s.session txt }
  let bufferText := bufGet s.buffers key
  let sess := s.session
  let sess :=
    { sess with
      contentMapKeys := addContentKey sess.contentMapKeys key
      rendered := renderSet sess.rendered key (Rendered.markdown bufferText) }
  let s := { s with session := sess }
  if s.statusCollapsedOnResponse then s
  else { s with statusState := StatusState.complete, statusCollapsedOnResponse := true }

/-- `handle_streaming_citation` (collector.py), documentation branch; the
file branch cannot trigger for cortex-search annotations because their type
field is excluded. -/
def handleStreamingCitation (sess : SessionState) (sid title did : String) :
    SessionState :=
  if did ≠ "" ∧ title ≠ "" then
    let entry : StreamCitation :=
      ⟨did, title, sid, "documentation"⟩
    let sess := { sess with streamingCitations := sess.streamingCitations ++ [entry] }
    addThreadCitation sess entry
  else sess

/-- `response.text.annotation` handler: validate the cite-source shape, store
the citation metadata in both legacy and thread stores, assign-or-reuse the
request-scoped display number, then run the streaming collector. -/
def stepTextAnnot (s : StreamState) (sid title did : String) : StreamState :=
  let s :=
    if sid ≠ "" ∧ title ≠ "" ∧ startsWithStr sid csMark = true then
      let d : CitationData := ⟨sid, did, title⟩
      let sess := addToolCitation s.session sid d
      let sess := addThreadToolCitation sess sid d
      let r := getOrAssignCitationNumber sess.citState sid
      { s with session := { sess with citState := r.1 } }
    else s
  { s with session := handleStreamingCitation s.session sid title did }

/-- `response.thinking.delta` handler. -/
def stepThinkingDelta (s : StreamState) (idx : Nat) (txt : String) : StreamState :=
  let key : ContentKey := (s.currentRequestId, idx)
  let s := { s with buffers := bufAppend s.buffers key txt }
  let s :=
    if s.thinkingStatusSet then s
    else { s with thinkingStatusSet := true, statusState := StatusState.running }
  let s :=
    if key ∈ s.thinkingPlaceholders then s
    else { s with thinkingPlaceholders := s.thinkingPlaceholders ++ [key] }
  let content := bufGet s.buffers key
  if key ∈ s.thinkingPlaceholders ∧ content ≠ "" then
    { s with thinkingRendered := strMapSet s.thinkingRendered key content }
  else s

/-- `response.thinking` handler: `buffers.get(content_idx)` looks the bare
integer up in a tuple-keyed dict, so the fallback is always empty and only a
non-empty event text updates the stored reasoning. -/
def stepThinkingFinal (s : StreamState) (txt : String) : StreamState :=
  let s := if txt ≠ "" then { s with finalAgentReasoning := txt } else s
  { s with statusState := StatusState.running }

/-- `response.tool_use` handler: remember the input under `tool_use_id` and
show a running status. -/
def stepToolUse (s : StreamState) (toolUseId : String) : StreamState :=
  let sess :=
    if toolUseId ≠ "" then
      { s.session with currentToolInputs := s.session.currentToolInputs ++ [toolUseId] }
    else s.session
  { s with session := sess, statusState := StatusState.running }

/-- Inline citation extraction of the `response.tool_result` case
(`event_data['data']['content']` items carrying `doc_id`, `doc_title` and a
`cs_`-prefixed id). -/
def extractInlineCitations (sess : SessionState) (dataItems : List ContentItem) :
    SessionState :=
  dataItems.foldl
    (fun acc it =>
      if it.docId ≠ "" ∧ it.docTitle ≠ "" ∧ startsWithStr it.itemId csMark = true then
        let d : CitationData := ⟨it.itemId, it.docId, it.docTitle⟩
        addThreadToolCitation (addToolCitation acc it.itemId d) it.itemId d
      else acc)
    sess

/-- `_extract_citations_from_tool_result`: search-result entries nested under
`content_item['json']['search_results']` with a title and a `cs_` id. -/
def extractSearchResultCitations (sess : SessionState) (items : List ContentItem) :
    SessionState :=
  items.foldl
    (fun acc it =>
      it.searchResults.foldl
        (fun acc2 r =>
          if r.resDocTitle ≠ "" ∧ startsWithStr r.resId csMark = true then
            let d : CitationData := ⟨r.resId, r.resDocId, r.resDocTitle⟩
            addThreadToolCitation (addToolCitation acc2 r.resId d) r.resId d
          else acc2)
        acc)
    sess

/-- `_process_embedded_table_data`: embedded tabular payloads are persisted
via `add_request_table` keyed by the session `current_response_id` (not by the
header request id). -/
def processEmbeddedTableData (sess : SessionState) (items : List ContentItem) :
    SessionState :=
  items.foldl
    (fun acc it =>
      match it.jsonTable with
      | some tbl => addRequestTable acc tbl acc.currentResponseId
      | none => acc)
    sess

/-- `response.tool_result` handler. -/
def stepToolResult (s : StreamState) (toolUseId name status : String)
    (dataItems items : List ContentItem) : StreamState :=
  let sess := extractInlineCitations s.session dataItems
  let sess :=
    if toolUseId ≠ "" then
      addThreadToolResult sess toolUseId ⟨name, status, items⟩
    else sess
  let s :=
    { s with
      session := sess
      statusState :=
        if lowerStr status = "error" then StatusState.errorState
        else StatusState.running }
  let sess := extractSearchResultCitations s.session items
  let sess := processEmbeddedTableData sess items
  { s with session := sess }

/-- `response.tool_result.analyst.delta` handler: appends to the buffer, then
renders through a direct `content_map[key]` access which raises `KeyError`
when the container was never created. -/
def stepAnalystDelta (s : StreamState) (idx : Nat) (delta : String) : StepResult :=
  if delta = "" then .next s
  else
    let key : ContentKey := (s.currentRequestId, idx)
    let s := { s with buffers := bufAppend s.buffers key delta }
    if key ∈ s.session.contentMapKeys then
      .next
        { s with
          session :=
            { s.session with
              rendered := renderSet s.session.rendered key
                (Rendered.markdown (bufGet s.buffers key)) } }
    else .raised s ("KeyError: content_map")

/-- `response.tool_result.sql_explanation.delta` handler: buffer append shown
inside the status container. -/
def stepSqlExplanationDelta (s : StreamState) (idx : Nat) (delta : String) :
    StreamState :=
  if delta = "" then s
  else { s with buffers := bufAppend s.buffers (s.currentRequestId, idx) delta }

/-- `_handle_table_event`: render the dataframe into the request-scoped slot,
trim the legacy session-wide list to its last 5 entries when it exceeds 10,
then persist via `add_request_table` under the header request id. -/
def handleTableEvent (s : StreamState) (idx : Nat) (tbl : TableData) : StreamState :=
  let key : ContentKey := (s.currentRequestId, idx)
  let sess := s.session
  let sess :=
    { sess with
      contentMapKeys := addContentKey sess.contentMapKeys key
      rendered := renderSet sess.rendered key (Rendered.dataframe tbl.rows tbl.cols) }
  let cur := sess.currentResponseTables
  let sess :=
    if cur.length > 10 then
      { sess with currentResponseTables := cur.drop (cur.length - 5) }
    else sess
  let sess := addRequestTable sess tbl (some s.currentRequestId)
  { s with session := sess }

/-- `_handle_chart_event`: a spec that fails JSON parsing renders an error and
stores nothing; otherwise render, collect locally, trim the legacy chart list
past 10 to its last 5, and persist under the header request id. -/
def handleChartEvent (s : StreamState) (idx : Nat) (spec? : Option ChartSpec) :
    StreamState :=
  let key : ContentKey := (s.currentRequestId, idx)
  match spec? with
  | none =>
    let sess := s.session
    { s with
      session :=
        { sess with
          contentMapKeys := addContentKey sess.contentMapKeys key
          rendered := renderSet sess.rendered key (Rendered.errText ("chart parse error")) } }
  | some spec =>
    let sess := s.session
    let sess :=
      { sess with
        contentMapKeys := addContentKey sess.contentMapKeys key
        rendered := renderSet sess.rendered key (Rendered.vegaChart spec) }
    let s := { s with session := sess, chartsLocal := s.chartsLocal ++ [spec] }
    let cur := s.session.currentResponseCharts
    let sess :=
      if cur.length > 10 then
        { s.session with currentResponseCharts := cur.drop (cur.length - 5) }
      else s.session
    let sess := addRequestChart sess spec (some s.currentRequestId)
    { s with session := sess }

/-- `_handle_error_event` for `response.error`: mark failed and surface the
message; the loop is NOT broken for this event kind. -/
def stepResponseError (s : StreamState) (message : String) : StreamState :=
  { s with
    statusState := StatusState.errorState
    userErrors := s.userErrors ++ [message] }

/-- Top-level `error` handler: mark failed, surface the message, then break. -/
def stepTopLevelError (s : StreamState) (message : String) : StreamState :=
  { s with
    statusState := StatusState.errorState
    userErrors := s.userErrors ++ [message] }

/-- `response.done` handler: run the citation pass over the current request
buffers, mark complete and break; a `KeyError` inside the pass escapes to the
outer handler with the partial citation state retained. -/
def stepDone (s : StreamState) : StepResult :=
  match donePass s with
  | .ok o =>
    .stop
      { s with
        session := { s.session with citState := o.cit, rendered := o.rendered }
        statusState := StatusState.complete }
  | .keyErr cit rend _ _ =>
    .raised
      { s with session := { s.session with citState := cit, rendered := rend } }
      ("KeyError: content_map")

/-- The event dispatch of `stream_events_realtime` (the `match event.event`). -/
def stepEvent (s : StreamState) : Event → StepResult
  | .malformedJson => .next s
  | .statusEv statusType _ =>
    .next (if statusType = "reevaluating_plan" then { s with agentIsReevaluating := true } else s)
  | .textDelta idx txt => .next (stepTextDelta s idx txt)
  | .textAnnot _ sid title did => .next (stepTextAnnot s sid title did)
  | .thinkingDelta idx txt => .next (stepThinkingDelta s idx txt)
  | .thinkingFinal _ txt => .next (stepThinkingFinal s txt)
  | .toolUse _ toolUseId => .next (stepToolUse s toolUseId)
  | .toolResult toolUseId name status dataItems items =>
    .next (stepToolResult s toolUseId name status dataItems items)
  | .toolResultStatus _ status _ =>
    .next
      { s with
        statusState :=
          if status = "error" then StatusState.errorState else StatusState.running }
  | .analystDelta idx delta => stepAnalystDelta s idx delta
  | .sqlExplanationDelta idx delta => .next (stepSqlExplanationDelta s idx delta)
  | .tableEv idx tbl => .next (handleTableEvent s idx tbl)
  | .chartEv idx spec? => .next (handleChartEvent s idx spec?)
  | .responseError message => .next (stepResponseError s message)
  | .topLevelError _ message => .stop (stepTopLevelError s message)
  | .executionTrace => .next s
  | .metadataEv messageId =>
    .next
      (match messageId with
       | some mid =>
         { s with session := { s.session with currentAssistantMessageId := some mid } }
       | none => s)
  | .done => stepDone s
  | .unrecognized _ => .next s

/-! ## The event loop, initialisation and finalisation -/

inductive LoopResult where
  | finished (s : StreamState)
  | failed (s : StreamState) (msg : String)

def LoopResult.state : LoopResult → StreamState
  | .finished s => s
  | .failed s _ => s

/-- The main `for event in events` loop: process events in order; `break`
ends the loop normally, an exception escapes to the outer handler. -/
def runLoop : StreamState → List Event → LoopResult
  | s, [] => .finished s
  | s, e :: rest =>
    match stepEvent s e with
    | .next s' => runLoop s' rest
    | .stop s' => .finished s'
    | .raised s' msg => .failed s' msg

/-- `response.headers.get('X-Snowflake-Request-Id', 'unknown')`. -/
def extractRequestId (hdr : Option String) : String := hdr.getD ("unknown")

/-- `reset_citation_numbering` (processor.py): generates a LOCAL response id
`resp_{millis}` and stores it as `current_response_id`, then resets the
request-scoped citation mapping and counter. -/
def resetCitationNumbering (millis : Nat) (sess : SessionState) : SessionState :=
  { sess with
    currentResponseId := some ("resp_" ++ toString millis)
    citState := resetRequestCitations }

/-- Initialisation of `stream_events_realtime`: extract the header request id,
synchronize it into `current_response_id`, then run
`reset_citation_numbering` (which overwrites `current_response_id` with the
locally generated `resp_{millis}` id). -/
def initStream (hdr : Option String) (millis : Nat) (sess : SessionState) :
    StreamState :=
  let rid := extractRequestId hdr
  let sess := { sess with currentResponseId := some rid }
  let sess := resetCitationNumbering millis sess
  { session := sess, currentRequestId := rid }

/-- `bot_text_message` is resolved only when it carries citation markup
(`'<cite>' in bot or 'cs_' in bot`). -/
def botHasMarkup (bot : String) : Bool :=
  containsSub bot citeOpenTag || containsSub bot csMark

/-- The displayed citations block produced by
`display_post_completion_citations` (display.py). -/
structure DisplayedCitation where
  number : Nat
  citId : String
  docTitle : String
  docId : String
deriving DecidableEq

def insertSorted (n : Nat) : List Nat → List Nat
  | [] => [n]
  | m :: t => if n ≤ m then n :: m :: t else m :: insertSorted n t

/-- `sorted(citation_mapping.values())`. -/
def sortNats (l : List Nat) : List Nat := l.foldr insertSorted []

/-- First mapping key carrying the given display number (the inner search
loop of the display function). -/
def firstKeyWithNumber : List (String × Nat) → Nat → Option String
  | [], _ => none
  | (k, v) :: t, n => if v = n then some k else firstKeyWithNumber t n

/-- The item-building loop over ordered citations: require `doc_id`,
`doc_title` and a `cs_`-prefixed id, and deduplicate by id. -/
def displayLoop : List (Nat × String × CitationData) → List String →
    List DisplayedCitation
  | [], _ => []
  | (n, cid, d) :: t, seen =>
    if d.docId ≠ "" ∧ d.docTitle ≠ "" ∧ startsWithStr cid csMark = true then
      if cid ∈ seen then displayLoop t seen
      else ⟨n, cid, d.docTitle, d.docId⟩ :: displayLoop t (cid :: seen)
    else displayLoop t seen

/-- The mapped-citation branch of the display function: order the mapped ids
by display number, look each up in the effective tool-citation store, and run
the item-building loop. -/
def displayMappedBranch (cm : List (String × Nat))
    (eff : List (String × CitationData)) : List DisplayedCitation :=
  displayLoop
    ((sortNats (cm.map Prod.snd)).filterMap
      (fun n =>
        match firstKeyWithNumber cm n with
        | none => none
        | some cid =>
          match alookup eff cid with
          | some d => some (n, cid, d)
          | none => none)) []

/-- The fallback branch over annotation-collected streaming citations. -/
def displayStreamingBranch (cs : List StreamCitation) : List DisplayedCitation :=
  cs.foldl
    (fun (acc : List DisplayedCitation) c =>
      if c.citationType = "documentation" then
        acc ++ [⟨acc.length + 1, "", c.docTitle, c.docId⟩]
      else acc)
    []

/-- `display_post_completion_citations`: choose the request-scoped mapping
when non-empty (legacy `citation_id_mapping` otherwise) and the thread tool
citations when non-empty (legacy store otherwise); display, in sorted number
order, only ids that are both mapped AND present in the tool-citation store;
fall back to annotation-collected streaming citations when no mapping exists. -/
def displayPostCompletionCitations (sess : SessionState) : List DisplayedCitation :=
  let requestMapping := sess.citState.mapping
  let citationMapping :=
    if requestMapping.isEmpty then sess.citationIdMapping else requestMapping
  let effective :=
    if sess.threadToolCitations.isEmpty then sess.toolResultCitations
    else sess.threadToolCitations
  if citationMapping.isEmpty = false ∧ effective.isEmpty = false then
    displayMappedBranch citationMapping effective
  else if sess.streamingCitations.isEmpty = false then
    displayStreamingBranch sess.streamingCitations
  else []

/-- What `stream_events_realtime` leaves behind: the returned final text, the
end state, and the materialized citations block. -/
structure StreamOutput where
  text : String
  state : StreamState
  displayedCitations : List DisplayedCitation

/-- The single outer `except` handler: show the streaming error, mark the
status container failed, and fall through to `return bot_text_message` with
all partial content untouched. -/
def markFailedOutput (s : StreamState) (msg : String) : StreamOutput :=
  let s :=
    { s with
      userErrors := s.userErrors ++ ["Streaming error: " ++ msg]
      statusState := StatusState.errorState }
  ⟨s.botTextMessage, s, []⟩

/-- The code after the loop (still inside the outer try): final status update,
fallback citation pass, resolution of the returned text, missing-table check
and post-completion citation display. -/
def postLoopFinalize (s : StreamState) : StreamOutput :=
  let s := { s with statusState := StatusState.complete }
  match donePass s with
  | .keyErr cit rend _ _ =>
    markFailedOutput
      { s with session := { s.session with citState := cit, rendered := rend } }
      ("KeyError: content_map")
  | .ok o =>
    let s := { s with session := { s.session with citState := o.cit, rendered := o.rendered } }
    let botPair :=
      if botHasMarkup s.botTextMessage then
        processCitationIdsInText s.session.toolResultCitations s.session.citState
          s.botTextMessage
      else (s.session.citState, s.botTextMessage)
    let s :=
      { s with
        session := { s.session with citState := botPair.1 }
        botTextMessage := botPair.2 }
    let s := handleMissingTableReferences s
    ⟨s.botTextMessage, s, displayPostCompletionCitations s.session⟩

/-- `stream_events_realtime` (cortex_integration.py): the only entry point;
consumes the stream, performs all side effects and always returns a final
text string (the outer handler catches any dispatch exception). -/
def streamEventsRealtime (hdr : Option String) (millis : Nat)
    (sess : SessionState) (evs : List Event) : StreamOutput :=
  let s0 := initStream hdr millis sess
  match runLoop s0 evs with
  | .finished s => postLoopFinalize s
  | .failed s msg => markFailedOutput s msg

/-! ## Frame lemmas for buffers and rendered content -/

theorem bufGet_aset (b : List (ContentKey × String)) (k k' : ContentKey) (v : String) :
    bufGet (aset b k v) k' = if k' = k then v else bufGet b k' := by
  unfold bufGet
  rw [alookup_aset]
  by_cases h : k' = k <;> simp [h]

theorem bufGet_bufAppend (b : List (ContentKey × String)) (k k' : ContentKey)
    (txt : String) :
    bufGet (bufAppend b k txt) k' =
      if k' = k then bufGet b k ++ txt else bufGet b k' := by
  unfold bufAppend
  rw [bufGet_aset]

theorem bufGet_bufClearIfPresent (b : List (ContentKey × String)) (k k' : ContentKey) :
    bufGet (bufClearIfPresent b k) k' = if k' = k then "" else bufGet b k' := by
  unfold bufClearIfPresent
  by_cases h : (alookup b k).isSome
  · simp only [h, if_true]
    rw [bufGet_aset]
  · simp only [h, if_false]
    by_cases hk : k' = k
    · subst hk
      cases ha : alookup b k' with
      | some v => rw [ha] at h; simp at h
      | none => simp [bufGet, ha]
    · simp [hk]

theorem renderSet_at (r : ContentKey → Rendered) (k v k') :
    renderSet r k v k' = if k' = k then v else r k' := rfl

theorem strMapSet_at (r : ContentKey → String) (k v k') :
    strMapSet r k v k' = if k' = k then v else r k' := rfl

theorem clearStep_buffers (rid : String) (st : StreamState) (oldIdx : Nat) :
    (clearStep rid st oldIdx).buffers = bufClearIfPresent st.buffers (rid, oldIdx) := by
  simp only [clearStep]
  split <;> rfl

theorem clearStep_rendered_fn (rid : String) (st : StreamState) (oldIdx : Nat) :
    (clearStep rid st oldIdx).session.rendered =
      renderSet st.session.rendered (rid, oldIdx) Rendered.empty := by
  simp only [clearStep]
  split <;> rfl

theorem clearStep_bufGet (rid : String) (st : StreamState) (oldIdx : Nat)
    (k : ContentKey) :
    bufGet (clearStep rid st oldIdx).buffers k =
      if k = (rid, oldIdx) then "" else bufGet st.buffers k := by
  rw [clearStep_buffers, bufGet_bufClearIfPresent]

theorem clearStep_rendered (rid : String) (st : StreamState) (oldIdx : Nat)
    (k : ContentKey) :
    (clearStep rid st oldIdx).session.rendered k =
      if k = (rid, oldIdx) then Rendered.empty else st.session.rendered k := by
  rw [clearStep_rendered_fn, renderSet_at]

theorem clearStep_rid (rid : String) (st : StreamState) (oldIdx : Nat) :
    (clearStep rid st oldIdx).currentRequestId = st.currentRequestId := by
  simp only [clearStep]
  split <;> rfl

theorem clearFold_bufGet (rid : String) (l : List Nat) (st : StreamState)
    (k : ContentKey) :
    bufGet (l.foldl (clearStep rid) st).buffers k =
      if k.1 = rid ∧ k.2 ∈ l then "" else bufGet st.buffers k := by
  induction l generalizing st with
  | nil => simp
  | cons j t ih =>
    simp only [List.foldl_cons]
    rw [ih]
    by_cases h1 : k.1 = rid ∧ k.2 ∈ t
    · simp [h1, h1.1, List.mem_cons, Or.inr h1.2]
    · by_cases h2 : k = (rid, j)
      · have hk1 : k.1 = rid := by rw [h2]
        have hk2 : k.2 = j := by rw [h2]
        simp [h1, clearStep_bufGet, h2, hk1, hk2, List.mem_cons]
      · have hcond2 : ¬(k.1 = rid ∧ (k.2 = j ∨ k.2 ∈ t)) := by
          rintro ⟨ha, hb⟩
          rcases hb with hj | ht
          · exact h2 (Prod.ext ha hj)
          · exact h1 ⟨ha, ht⟩
        simp [h1, clearStep_bufGet, h2, hcond2]

theorem clearFold_rendered (rid : String) (l : List Nat) (st : StreamState)
    (k : ContentKey) :
    ((l.foldl (clearStep rid) st).session.rendered) k =
      if k.1 = rid ∧ k.2 ∈ l then Rendered.empty else st.session.rendered k := by
  induction l generalizing st with
  | nil => simp
  | cons j t ih =>
    simp only [List.foldl_cons]
    rw [ih]
    by_cases h1 : k.1 = rid ∧ k.2 ∈ t
    · simp [h1, h1.1, List.mem_cons, Or.inr h1.2]
    · by_cases h2 : k = (rid, j)
      · have hk1 : k.1 = rid := by rw [h2]
        have hk2 : k.2 = j := by rw [h2]
        simp [h1, clearStep_rendered, h2, hk1, hk2, List.mem_cons]
      · have hcond2 : ¬(k.1 = rid ∧ (k.2 = j ∨ k.2 ∈ t)) := by
          rintro ⟨ha, hb⟩
          rcases hb with hj | ht
          · exact h2 (Prod.ext ha hj)
          · exact h1 ⟨ha, ht⟩
        simp [h1, clearStep_rendered, h2, hcond2]

theorem clearFold_rid (rid : String) (l : List Nat) (st : StreamState) :
    (l.foldl (clearStep rid) st).currentRequestId = st.currentRequestId := by
  induction l generalizing st with
  | nil => rfl
  | cons j t ih =>
    simp only [List.foldl_cons]
    rw [ih, clearStep_rid]

theorem clearOldContent_bufGet (s : StreamState) (k : ContentKey) :
    bufGet (clearOldContent s).buffers k =
      if k.1 = s.currentRequestId ∧ k.2 ∈ s.activeContentIndices then ""
      else bufGet s.buffers k := by
  unfold clearOldContent
  exact clearFold_bufGet _ _ _ _

theorem clearOldContent_rendered (s : StreamState) (k : ContentKey) :
    (clearOldContent s).session.rendered k =
      if k.1 = s.currentRequestId ∧ k.2 ∈ s.activeContentIndices then Rendered.empty
      else s.session.rendered k := by
  unfold clearOldContent
  exact clearFold_rendered _ _ _ _

theorem clearOldContent_rid (s : StreamState) :
    (clearOldContent s).currentRequestId = s.currentRequestId := by
  unfold clearOldContent
  exact clearFold_rid _ _ _

/-! ## Preservation of rendered content by session-store operations -/

theorem addToolCitation_rendered (sess : SessionState) (cid : String) (d : CitationData) :
    (addToolCitation sess cid d).rendered = sess.rendered := rfl

theorem addThreadToolCitation_rendered (sess : SessionState) (cid : String)
    (d : CitationData) :
    (addThreadToolCitation sess cid d).rendered = sess.rendered := by
  unfold addThreadToolCitation
  cases sess.currentThreadId <;> rfl

theorem addThreadToolResult_rendered (sess : SessionState) (tid : String)
    (r : StoredToolResult) :
    (addThreadToolResult sess tid r).rendered = sess.rendered := by
  unfold addThreadToolResult
  cases sess.currentThreadId <;> rfl

theorem addThreadCitation_rendered (sess : SessionState) (c : StreamCitation) :
    (addThreadCitation sess c).rendered = sess.rendered := by
  unfold addThreadCitation
  cases sess.currentThreadId <;> rfl

theorem addRequestTable_rendered (sess : SessionState) (tbl : TableData)
    (rq : Option String) :
    (addRequestTable sess tbl rq).rendered = sess.rendered := rfl

theorem addRequestChart_rendered (sess : SessionState) (c : ChartSpec)
    (rq : Option String) :
    (addRequestChart sess c rq).rendered = sess.rendered := rfl

theorem setRequestTableReferenced_rendered (sess : SessionState) (b : Bool)
    (rq : Option String) :
    (setRequestTableReferenced sess b rq).rendered = sess.rendered := rfl

theorem addRequestToolId_rendered (sess : SessionState) (tid : String)
    (rq : Option String) :
    (addRequestToolId sess tid rq).rendered = sess.rendered := by
  simp only [addRequestToolId]
  split <;> rfl

theorem foldlSession_rendered {α : Type} (g : SessionState → α → SessionState)
    (h : ∀ acc a, (g acc a).rendered = acc.rendered) :
    ∀ (l : List α) (sess : SessionState), (l.foldl g sess).rendered = sess.rendered := by
  intro l
  induction l with
  | nil => intro sess; rfl
  | cons a t ih =>
    intro sess
    simp only [List.foldl_cons]
    rw [ih, h]

theorem detect_rendered (sess : SessionState) (t : String) :
    (detectAndHandleTableReferences sess t).rendered = sess.rendered := by
  unfold detectAndHandleTableReferences
  split
  · rfl
  · rw [foldlSession_rendered]
    · split
      · rw [setRequestTableReferenced_rendered]
      · rfl
    · intro acc a
      rw [addRequestToolId_rendered]

theorem handleStreamingCitation_rendered (sess : SessionState) (sid title did : String) :
    (handleStreamingCitation sess sid title did).rendered = sess.rendered := by
  unfold handleStreamingCitation
  split
  · rw [addThreadCitation_rendered]
  · rfl

theorem extractInlineCitations_rendered (sess : SessionState)
    (items : List ContentItem) :
    (extractInlineCitations sess items).rendered = sess.rendered := by
  unfold extractInlineCitations
  rw [foldlSession_rendered]
  intro acc a
  split
  · rw [addThreadToolCitation_rendered, addToolCitation_rendered]
  · rfl

theorem extractSearchResultCitations_rendered (sess : SessionState)
    (items : List ContentItem) :
    (extractSearchResultCitations sess items).rendered = sess.rendered := by
  unfold extractSearchResultCitations
  rw [foldlSession_rendered]
  intro acc a
  rw [foldlSession_rendered]
  intro acc2 r
  split
  · rw [addThreadToolCitation_rendered, addToolCitation_rendered]
  · rfl

theorem processEmbeddedTableData_rendered (sess : SessionState)
    (items : List ContentItem) :
    (processEmbeddedTableData sess items).rendered = sess.rendered := by
  unfold processEmbeddedTableData
  rw [foldlSession_rendered]
  intro acc a
  cases a.jsonTable <;> simp [addRequestTable_rendered]

/-! ## Frame lemmas for the completion-time citation pass -/

def PassResult.renderedOf : PassResult → ContentKey → Rendered
  | .ok o => o.rendered
  | .keyErr _ rend _ _ => rend

def PassResult.citOf : PassResult → CitState
  | .ok o => o.cit
  | .keyErr cit _ _ _ => cit

def PassResult.processedOf : PassResult → List (ContentKey × String)
  | .ok o => o.processed
  | .keyErr _ _ pr _ => pr

theorem citationPassGo_rendered_frame (rid : String)
    (tc : List (String × CitationData)) (keys : List ContentKey)
    (k : ContentKey) (hk : k.1 ≠ rid) :
    ∀ (bufs : List (ContentKey × String)) (cit : CitState)
      (rend : ContentKey → Rendered) (acc : List (ContentKey × String)),
      (citationPassGo rid tc keys cit rend acc bufs).renderedOf k = rend k := by
  intro bufs
  induction bufs with
  | nil =>
    intro cit rend acc
    rfl
  | cons hd t ih =>
    intro cit rend acc
    obtain ⟨k', content⟩ := hd
    unfold citationPassGo
    split
    · rename_i hq
      split
      · rw [ih]
        have hne : k ≠ k' := fun he => hk (he ▸ hq.1)
        simp [renderSet_at, hne]
      · rfl
    · exact ih _ _ _

/-! ## Per-handler frame lemmas: no event mutates buffers or rendered content
of a request other than the current one -/

theorem stepTextDelta_frame (s : StreamState) (idx : Nat) (txt : String)
    (k : ContentKey) (hk : k.1 ≠ s.currentRequestId) :
    bufGet (stepTextDelta s idx txt).buffers k = bufGet s.buffers k ∧
    (stepTextDelta s idx txt).session.rendered k = s.session.rendered k := by
  have hkey : k ≠ (s.currentRequestId, idx) := fun he => hk (congrArg Prod.fst he)
  have hclear : ¬(k.1 = s.currentRequestId ∧ k.2 ∈ s.activeContentIndices) :=
    fun hc => hk hc.1
  simp only [stepTextDelta]
  split <;> split <;>
    refine ⟨?_, ?_⟩ <;>
    simp [bufGet_bufAppend, hkey, renderSet_at, detect_rendered,
      clearOldContent_bufGet, clearOldContent_rendered, hclear]

theorem stepTextAnnot_buffers (s : StreamState) (sid title did : String) :
    (stepTextAnnot s sid title did).buffers = s.buffers := by
  simp only [stepTextAnnot]
  split <;> rfl

theorem stepTextAnnot_rendered (s : StreamState) (sid title did : String) :
    (stepTextAnnot s sid title did).session.rendered = s.session.rendered := by
  simp only [stepTextAnnot]
  split <;>
    simp [handleStreamingCitation_rendered, addThreadToolCitation_rendered,
      addToolCitation_rendered]

theorem stepThinkingDelta_session (s : StreamState) (idx : Nat) (txt : String) :
    (stepThinkingDelta s idx txt).session = s.session := by
  simp only [stepThinkingDelta]
  repeat' split
  all_goals rfl

theorem stepThinkingDelta_buffers (s : StreamState) (idx : Nat) (txt : String) :
    (stepThinkingDelta s idx txt).buffers =
      bufAppend s.buffers (s.currentRequestId, idx) txt := by
  simp only [stepThinkingDelta]
  repeat' split
  all_goals rfl

theorem stepThinkingFinal_buffers (s : StreamState) (txt : String) :
    (stepThinkingFinal s txt).buffers = s.buffers := by
  simp only [stepThinkingFinal]
  split <;> rfl

theorem stepThinkingFinal_session (s : StreamState) (txt : String) :
    (stepThinkingFinal s txt).session = s.session := by
  simp only [stepThinkingFinal]
  split <;> rfl

theorem stepToolUse_buffers (s : StreamState) (toolUseId : String) :
    (stepToolUse s toolUseId).buffers = s.buffers := rfl

theorem stepToolUse_rendered (s : StreamState) (toolUseId : String) :
    (stepToolUse s toolUseId).session.rendered = s.session.rendered := by
  simp only [stepToolUse]
  split <;> rfl

theorem stepToolResult_buffers (s : StreamState) (toolUseId name status : String)
    (dataItems items : List ContentItem) :
    (stepToolResult s toolUseId name status dataItems items).buffers = s.buffers := rfl

theorem stepToolResult_rendered (s : StreamState) (toolUseId name status : String)
    (dataItems items : List ContentItem) :
    (stepToolResult s toolUseId name status dataItems items).session.rendered
      = s.session.rendered := by
  simp only [stepToolResult, processEmbeddedTableData_rendered,
    extractSearchResultCitations_rendered]
  split <;> simp [addThreadToolResult_rendered, extractInlineCitations_rendered]

theorem stepAnalystDelta_frame (s : StreamState) (idx : Nat) (delta : String)
    (k : ContentKey) (hk : k.1 ≠ s.currentRequestId) :
    bufGet (stepAnalystDelta s idx delta).state.buffers k = bufGet s.buffers k ∧
    (stepAnalystDelta s idx delta).state.session.rendered k = s.session.rendered k := by
  have hkey : k ≠ (s.currentRequestId, idx) := fun he => hk (congrArg Prod.fst he)
  simp only [stepAnalystDelta]
  split
  · exact ⟨rfl, rfl⟩
  · split <;>
      refine ⟨?_, ?_⟩ <;>
      simp [StepResult.state, bufGet_bufAppend, hkey, renderSet_at]

theorem stepSqlExplanationDelta_frame (s : StreamState) (idx : Nat) (delta : String)
    (k : ContentKey) (hk : k.1 ≠ s.currentRequestId) :
    bufGet (stepSqlExplanationDelta s idx delta).buffers k = bufGet s.buffers k ∧
    (stepSqlExplanationDelta s idx delta).session = s.session := by
  have hkey : k ≠ (s.currentRequestId, idx) := fun he => hk (congrArg Prod.fst he)
  simp only [stepSqlExplanationDelta]
  split
  · exact ⟨rfl, rfl⟩
  · exact ⟨by simp [bufGet_bufAppend, hkey], rfl⟩

theorem handleTableEvent_frame (s : StreamState) (idx : Nat) (tbl : TableData)
    (k : ContentKey) (hk : k.1 ≠ s.currentRequestId) :
    (handleTableEvent s idx tbl).buffers = s.buffers ∧
    (handleTableEvent s idx tbl).session.rendered k = s.session.rendered k := by
  have hkey : k ≠ (s.currentRequestId, idx) := fun he => hk (congrArg Prod.fst he)
  refine ⟨rfl, ?_⟩
  simp only [handleTableEvent, addRequestTable_rendered]
  split <;> simp [renderSet_at, hkey]

theorem handleChartEvent_frame (s : StreamState) (idx : Nat) (spec? : Option ChartSpec)
    (k : ContentKey) (hk : k.1 ≠ s.currentRequestId) :
    (handleChartEvent s idx spec?).buffers = s.buffers ∧
    (handleChartEvent s idx spec?).session.rendered k = s.session.rendered k := by
  have hkey : k ≠ (s.currentRequestId, idx) := fun he => hk (congrArg Prod.fst he)
  cases spec? with
  | none =>
    refine ⟨rfl, ?_⟩
    simp [handleChartEvent, renderSet_at, hkey]
  | some spec =>
    refine ⟨rfl, ?_⟩
    simp only [handleChartEvent, addRequestChart_rendered]
    split <;> simp [renderSet_at, hkey]

theorem stepDone_frame (s : StreamState) (k : ContentKey)
    (hk : k.1 ≠ s.currentRequestId) :
    (stepDone s).state.buffers = s.buffers ∧
    (stepDone s).state.session.rendered k = s.session.rendered k := by
  have hframe := citationPassGo_rendered_frame s.currentRequestId
    s.session.toolResultCitations s.session.contentMapKeys k hk
    s.buffers s.session.citState s.session.rendered []
  simp only [stepDone]
  cases hdp : donePass s with
  | ok o =>
    refine ⟨rfl, ?_⟩
    have := hframe
    rw [donePass] at hdp
    rw [hdp] at this
    simpa [PassResult.renderedOf] using this
  | keyErr cit rend pr kk =>
    refine ⟨rfl, ?_⟩
    have := hframe
    rw [donePass] at hdp
    rw [hdp] at this
    simpa [PassResult.renderedOf] using this

/-- C1 (slot isolation): dispatching any single event in a stream whose
current request id is `s.currentRequestId` leaves both the text buffer and
the rendered content of every slot `(b, i)` of any other request `b`
untouched, content-index collisions included — in particular the
re-evaluation clearing step clears only current-request slots. -/
theorem claim_C1_slot_isolation (s : StreamState) (e : Event) (b : String) (i : Nat)
    (hb : b ≠ s.currentRequestId) :
    bufGet (stepEvent s e).state.buffers (b, i) = bufGet s.buffers (b, i) ∧
    (stepEvent s e).state.session.rendered (b, i) = s.session.rendered (b, i) := by
  have hk : (Prod.fst ((b, i) : ContentKey)) ≠ s.currentRequestId := hb
  cases e with
  | malformedJson => exact ⟨rfl, rfl⟩
  | statusEv statusType message =>
    simp only [stepEvent, StepResult.state]
    split <;> exact ⟨rfl, rfl⟩
  | textDelta idx txt =>
    simpa only [stepEvent, StepResult.state] using stepTextDelta_frame s idx txt (b, i) hk
  | textAnnot idx sid title did =>
    simp only [stepEvent, StepResult.state]
    exact ⟨by rw [stepTextAnnot_buffers], by rw [stepTextAnnot_rendered]⟩
  | thinkingDelta idx txt =>
    simp only [stepEvent, StepResult.state]
    have hkey : ((b, i) : ContentKey) ≠ (s.currentRequestId, idx) :=
      fun he => hk (congrArg Prod.fst he)
    exact ⟨by rw [stepThinkingDelta_buffers, bufGet_bufAppend, if_neg hkey],
      by rw [stepThinkingDelta_session]⟩
  | thinkingFinal idx txt =>
    simp only [stepEvent, StepResult.state]
    exact ⟨by rw [stepThinkingFinal_buffers], by rw [stepThinkingFinal_session]⟩
  | toolUse name toolUseId =>
    simp only [stepEvent, StepResult.state]
    exact ⟨by rw [stepToolUse_buffers], by rw [stepToolUse_rendered]⟩
  | toolResult toolUseId name status dataItems items =>
    simp only [stepEvent, StepResult.state]
    exact ⟨by rw [stepToolResult_buffers], by rw [stepToolResult_rendered]⟩
  | toolResultStatus toolType status message =>
    exact ⟨rfl, rfl⟩
  | analystDelta idx delta =>
    simpa only [stepEvent] using stepAnalystDelta_frame s idx delta (b, i) hk
  | sqlExplanationDelta idx delta =>
    have h := stepSqlExplanationDelta_frame s idx delta (b, i) hk
    simp only [stepEvent, StepResult.state]
    exact ⟨h.1, by rw [h.2]⟩
  | tableEv idx tbl =>
    have h := handleTableEvent_frame s idx tbl (b, i) hk
    simp only [stepEvent, StepResult.state]
    exact ⟨by rw [h.1], h.2⟩
  | chartEv idx spec? =>
    have h := handleChartEvent_frame s idx spec? (b, i) hk
    simp only [stepEvent, StepResult.state]
    exact ⟨by rw [h.1], h.2⟩
  | responseError message =>
    exact ⟨rfl, rfl⟩
  | topLevelError code message =>
    exact ⟨rfl, rfl⟩
  | executionTrace => exact ⟨rfl, rfl⟩
  | metadataEv messageId =>
    simp only [stepEvent, StepResult.state]
    cases messageId <;> exact ⟨rfl, rfl⟩
  | done =>
    have h := stepDone_frame s (b, i) hk
    simp only [stepEvent]
    exact ⟨by rw [h.1], h.2⟩
  | unrecognized name => exact ⟨rfl, rfl⟩

/-! ## Characterisation of the text-delta handler for the re-evaluation rule -/

theorem stepTextDelta_clear (s : StreamState) (idx : Nat) (txt : String)
    (hcond : s.agentIsReevaluating = true ∧ (idx : Int) > s.highestContentIndex) :
    (stepTextDelta s idx txt).agentIsReevaluating = false
  ∧ (stepTextDelta s idx txt).botTextMessage = "" ++ txt
  ∧ (stepTextDelta s idx txt).activeContentIndices = [idx]
  ∧ (∀ k : ContentKey, bufGet (stepTextDelta s idx txt).buffers k =
      if k = (s.currentRequestId, idx) then
        (if k.1 = s.currentRequestId ∧ k.2 ∈ s.activeContentIndices then ""
         else bufGet s.buffers k) ++ txt
      else if k.1 = s.currentRequestId ∧ k.2 ∈ s.activeContentIndices then ""
      else bufGet s.buffers k)
  ∧ (∀ k : ContentKey, k ≠ (s.currentRequestId, idx) →
      (stepTextDelta s idx txt).session.rendered k =
        if k.1 = s.currentRequestId ∧ k.2 ∈ s.activeContentIndices then Rendered.empty
        else s.session.rendered k) := by
  refine ⟨?_, ?_, ?_, ?_, ?_⟩
  · simp only [stepTextDelta, if_pos hcond]
    split <;> rfl
  · simp only [stepTextDelta, if_pos hcond]
    split <;> rfl
  · simp only [stepTextDelta, if_pos hcond]
    split <;> simp [addNatOnce, clearOldContent]
  · intro k
    by_cases hko : k = (s.currentRequestId, idx)
    · subst hko
      simp only [stepTextDelta, if_pos hcond]
      split <;> simp [bufGet_bufAppend, clearOldContent_bufGet]
    · simp only [stepTextDelta, if_pos hcond]
      split <;> simp [bufGet_bufAppend, clearOldContent_bufGet, hko]
  · intro k hkey
    simp only [stepTextDelta, if_pos hcond]
    split <;>
      simp [renderSet_at, hkey, detect_rendered, clearOldContent_rendered]

theorem stepTextDelta_noclear (s : StreamState) (idx : Nat) (txt : String)
    (hcond : ¬(s.agentIsReevaluating = true ∧ (idx : Int) > s.highestContentIndex)) :
    (stepTextDelta s idx txt).agentIsReevaluating = s.agentIsReevaluating
  ∧ (stepTextDelta s idx txt).botTextMessage = s.botTextMessage ++ txt
  ∧ (∀ k : ContentKey, bufGet (stepTextDelta s idx txt).buffers k =
      if k = (s.currentRequestId, idx) then bufGet s.buffers k ++ txt
      else bufGet s.buffers k) := by
  refine ⟨?_, ?_, ?_⟩
  · simp only [stepTextDelta, if_neg hcond]
    split <;> rfl
  · simp only [stepTextDelta, if_neg hcond]
    split <;> rfl
  · intro k
    by_cases hko : k = (s.currentRequestId, idx)
    · subst hko
      simp only [stepTextDelta, if_neg hcond]
      split <;> simp [bufGet_bufAppend]
    · simp only [stepTextDelta, if_neg hcond]
      split <;> simp [bufGet_bufAppend, hko]

/-- C2 (re-evaluation clearing rule): a `reevaluating_plan` status sets the
flag; with the flag set, a text delta whose content index strictly exceeds the
highest index seen clears buffer, rendered output and thinking placeholder of
every previously active content index of the current request only, resets the
accumulated text, clears the flag and then appends the delta text to its own
slot; with the flag set but an index less than or equal to the highest seen,
nothing is cleared (only the addressed slot is appended to) and the flag stays
set. -/
theorem claim_C2_reevaluation_clearing (s : StreamState) (idx : Nat) (txt m : String)
    (hflag : s.agentIsReevaluating = true) :
    ((stepEvent s (Event.statusEv ("reevaluating_plan") m)).state.agentIsReevaluating
        = true)
  ∧ ((idx : Int) > s.highestContentIndex →
      ∃ s₂, stepEvent s (Event.textDelta idx txt) = StepResult.next s₂
      ∧ s₂.agentIsReevaluating = false
      ∧ s₂.botTextMessage = "" ++ txt
      ∧ s₂.activeContentIndices = [idx]
      ∧ (∀ j ∈ s.activeContentIndices, j ≠ idx →
            bufGet s₂.buffers (s.currentRequestId, j) = ""
          ∧ s₂.session.rendered (s.currentRequestId, j) = Rendered.empty)
      ∧ bufGet s₂.buffers (s.currentRequestId, idx)
          = (if idx ∈ s.activeContentIndices then ""
             else bufGet s.buffers (s.currentRequestId, idx)) ++ txt
      ∧ (∀ b i, b ≠ s.currentRequestId →
            bufGet s₂.buffers (b, i) = bufGet s.buffers (b, i)
          ∧ s₂.session.rendered (b, i) = s.session.rendered (b, i)))
  ∧ ((idx : Int) ≤ s.highestContentIndex →
      ∃ s₂, stepEvent s (Event.textDelta idx txt) = StepResult.next s₂
      ∧ s₂.agentIsReevaluating = true
      ∧ s₂.botTextMessage = s.botTextMessage ++ txt
      ∧ (∀ k : ContentKey, k ≠ (s.currentRequestId, idx) →
            bufGet s₂.buffers k = bufGet s.buffers k)
      ∧ bufGet s₂.buffers (s.currentRequestId, idx)
          = bufGet s.buffers (s.currentRequestId, idx) ++ txt) := by
  refine ⟨?_, ?_, ?_⟩
  · simp [stepEvent, StepResult.state]
  · intro hgt
    have h := stepTextDelta_clear s idx txt ⟨hflag, hgt⟩
    refine ⟨stepTextDelta s idx txt, rfl, h.1, h.2.1, h.2.2.1, ?_, ?_, ?_⟩
    · intro j hj hne
      have hkey : ((s.currentRequestId, j) : ContentKey) ≠ (s.currentRequestId, idx) :=
        fun he => hne (congrArg Prod.snd he)
      constructor
      · rw [h.2.2.2.1 (s.currentRequestId, j), if_neg hkey, if_pos ⟨rfl, hj⟩]
      · rw [h.2.2.2.2 (s.currentRequestId, j) hkey, if_pos ⟨rfl, hj⟩]
    · rw [h.2.2.2.1 (s.currentRequestId, idx), if_pos rfl]
      simp
    · intro b i hb
      have hkey : ((b, i) : ContentKey) ≠ (s.currentRequestId, idx) :=
        fun he => hb (congrArg Prod.fst he)
      have hnc : ¬((Prod.fst ((b, i) : ContentKey)) = s.currentRequestId
          ∧ (Prod.snd ((b, i) : ContentKey)) ∈ s.activeContentIndices) :=
        fun hc => hb hc.1
      constructor
      · rw [h.2.2.2.1 (b, i), if_neg hkey, if_neg hnc]
      · rw [h.2.2.2.2 (b, i) hkey, if_neg hnc]
  · intro hle
    have hnc : ¬(s.agentIsReevaluating = true ∧ (idx : Int) > s.highestContentIndex) :=
      fun hc => absurd hc.2 (not_lt.mpr hle)
    have h := stepTextDelta_noclear s idx txt hnc
    refine ⟨stepTextDelta s idx txt, rfl, by rw [h.1, hflag], h.2.1, ?_, ?_⟩
    · intro k hkey
      rw [h.2.2 k, if_neg hkey]
    · rw [h.2.2 (s.currentRequestId, idx), if_pos rfl]

/-- C3 (citation numbering is request-scoped, stable, first-seen-wins): after
the per-request reset the first resolution yields display number 1; an
unmapped source-id is assigned the next counter value and recorded; a mapped
source-id keeps its number through any later sequence of resolutions, and
resolving it again returns the same number. -/
theorem claim_C3_citation_numbering (cit : CitState) (x : String) (ys : List String) :
    ((getOrAssignCitationNumber resetRequestCitations x).2 = 1)
  ∧ (alookup cit.mapping x = none →
       (getOrAssignCitationNumber cit x).2 = cit.counter + 1
     ∧ alookup (getOrAssignCitationNumber cit x).1.mapping x = some (cit.counter + 1))
  ∧ (∀ n, alookup cit.mapping x = some n →
       alookup (assignList cit ys).mapping x = some n
     ∧ (getOrAssignCitationNumber (assignList cit ys) x).2 = n) := by
  refine ⟨?_, ?_, ?_⟩
  · simp [getOrAssignCitationNumber, resetRequestCitations, alookup]
  · intro h
    constructor
    · simp [getOrAssignCitationNumber, h]
    · simp only [getOrAssignCitationNumber, h]
      rw [alookup_append]
      simp [h, alookup]
  · intro n h
    have hmono := @assignList_mono cit x n ys h
    exact ⟨hmono, by rw [getOrAssign_of_some hmono]⟩

theorem claim_C3_witness :
    ((getOrAssignCitationNumber resetRequestCitations ("cs_a")).2 = 1)
  ∧ alookup (assignList ⟨[(("cs_a"), 1)], 1⟩ [("cs_b"), ("cs_a"), ("cs_c")]).mapping
      ("cs_a") = some 1
  ∧ (getOrAssignCitationNumber
      (assignList ⟨[(("cs_a"), 1)], 1⟩ [("cs_b"), ("cs_a"), ("cs_c")]) ("cs_a")).2 = 1 :=
  ⟨(claim_C3_citation_numbering ⟨[], 0⟩ ("cs_a") []).1,
   ((claim_C3_citation_numbering ⟨[(("cs_a"), 1)], 1⟩ ("cs_a")
      [("cs_b"), ("cs_a"), ("cs_c")]).2.2 1 (by decide)).1,
   ((claim_C3_citation_numbering ⟨[(("cs_a"), 1)], 1⟩ ("cs_a")
      [("cs_b"), ("cs_a"), ("cs_c")]).2.2 1 (by decide)).2⟩

/-- C6 counterexample: the claim says a `response-error` event stops
consumption, but the code only breaks on the top-level `error` event.  In the
stream `[response-error, text-delta]` the text delta that follows the error
IS processed: its text lands in the buffer (and is even returned as final
text), where stopping would have left the buffer empty. -/
theorem claim_C6_counterexample :
    bufGet (streamEventsRealtime (some ("req1")) 0 emptySessionState
        [Event.responseError ("boom"), Event.textDelta 0 ("after")]).state.buffers
      (("req1"), 0) = "after"
  ∧ (streamEventsRealtime (some ("req1")) 0 emptySessionState
        [Event.responseError ("boom"), Event.textDelta 0 ("after")]).text = "after" := by
  constructor <;> decide

/-- C6 amended: a top-level `error` event marks the turn failed, surfaces the
message, and terminates the loop without processing any following event; a
`response-error` event also marks the turn failed and surfaces the message,
but the loop continues consuming subsequent events. -/
theorem claim_C6_amended (s : StreamState) (code message : String)
    (rest : List Event) :
    (runLoop s (Event.topLevelError code message :: rest)
        = runLoop s [Event.topLevelError code message])
  ∧ (runLoop s [Event.topLevelError code message]).state.statusState
      = StatusState.errorState
  ∧ (runLoop s [Event.topLevelError code message]).state.userErrors
      = s.userErrors ++ [message]
  ∧ stepEvent s (Event.responseError message)
      = StepResult.next (stepResponseError s message)
  ∧ (stepResponseError s message).statusState = StatusState.errorState
  ∧ (stepResponseError s message).userErrors = s.userErrors ++ [message]
  ∧ runLoop s (Event.responseError message :: rest)
      = runLoop (stepResponseError s message) rest :=
  ⟨rfl, rfl, rfl, rfl, rfl, rfl, rfl⟩

def sampleTable : TableData := ⟨[["1"]], ["c"]⟩

/-- C8 counterexample: after 12 native table events in one request, the
request-scoped table list holds 12 entries — the per-request list is never
trimmed, so the claimed cap of 10 per request does not hold. -/
theorem claim_C8_counterexample :
    ((streamEventsRealtime (some ("r")) 0 emptySessionState
        (List.replicate 12 (Event.tableEv 0 sampleTable))).state.session.requestTables
      ("r")).length = 12 := by
  decide

/-- C8 amended: the trimming in the native table/chart handlers applies to the
LEGACY session-wide current-response list — when that list exceeds 10 entries
it is cut to its last 5, with a warning, before the append, so one native
handler call always leaves it with at most 11 entries; the request-scoped
per-request list is never trimmed and grows by exactly one entry per event. -/
theorem claim_C8_amended (s : StreamState) (idx : Nat) (tbl : TableData)
    (c : ChartSpec) (hrid : s.currentRequestId ≠ "") :
    ((handleTableEvent s idx tbl).session.currentResponseTables).length ≤ 11
  ∧ ((handleTableEvent s idx tbl).session.requestTables s.currentRequestId).length
      = (s.session.requestTables s.currentRequestId).length + 1
  ∧ ((handleChartEvent s idx (some c)).session.currentResponseCharts).length ≤ 11
  ∧ ((handleChartEvent s idx (some c)).session.requestCharts s.currentRequestId).length
      = (s.session.requestCharts s.currentRequestId).length + 1 := by
  have htr : ∀ sessx : SessionState,
      targetRequest (some s.currentRequestId) sessx = s.currentRequestId := by
    intro sessx
    simp [targetRequest, orElseStr, hrid]
  refine ⟨?_, ?_, ?_, ?_⟩
  · simp only [handleTableEvent, addRequestTable]
    split <;> rename_i hlen <;> simp [List.length_append] <;> omega
  · simp only [handleTableEvent, addRequestTable, htr, fnListSet]
    repeat' split
    all_goals simp_all
  · simp only [handleChartEvent, addRequestChart]
    split <;> rename_i hlen <;> simp [List.length_append] <;> omega
  · simp only [handleChartEvent, addRequestChart, htr, fnListSet]
    repeat' split
    all_goals simp_all

def plainStreamState : StreamState :=
  { session := emptySessionState, currentRequestId := "r" }

theorem claim_C8_amended_witness :
    ((handleTableEvent plainStreamState 0 sampleTable).session.requestTables
      ("r")).length
      = (plainStreamState.session.requestTables ("r")).length + 1 :=
  (claim_C8_amended plainStreamState 0 sampleTable "" (by decide)).2.1

/-- C9: contrary to the claim that every request identifier scoping the
engine state is the opaque header request id and none is generated locally,
`reset_citation_numbering` (invoked during initialisation, after the header id
was synchronised) overwrites `current_response_id` with a locally generated
`resp_{millis}` id.  A text delta that mentions a table then stores the
table-referenced flag under that locally generated id, not under the header
id `abc123` — and the missing-table check consequently fires against the
wrong key. -/
theorem claim_C9_locally_generated_response_id :
    ((initStream (some ("abc123")) 1700000000000 emptySessionState).currentRequestId
        = "abc123")
  ∧ ((initStream (some ("abc123")) 1700000000000 emptySessionState).session.currentResponseId
        = some "resp_1700000000000")
  ∧ ((streamEventsRealtime (some ("abc123")) 1700000000000 emptySessionState
        [Event.textDelta 0 ("here is the table")]).state.session.requestTableReferenced
        ("abc123") = none)
  ∧ ((streamEventsRealtime (some ("abc123")) 1700000000000 emptySessionState
        [Event.textDelta 0 ("here is the table")]).state.session.requestTableReferenced
        ("resp_1700000000000") = some true)
  ∧ ((streamEventsRealtime (some ("abc123")) 1700000000000 emptySessionState
        [Event.textDelta 0 ("here is the table")]).state.warnedMissingTable = true) := by
  refine ⟨rfl, rfl, ?_, ?_, ?_⟩ <;> decide

theorem stepEvent_rid (s : StreamState) (e : Event) :
    (stepEvent s e).state.currentRequestId = s.currentRequestId := by
  cases e with
  | statusEv statusType message =>
    simp only [stepEvent, StepResult.state]
    split <;> rfl
  | textDelta idx txt =>
    simp only [stepEvent, StepResult.state, stepTextDelta]
    split <;> split <;> simp [clearOldContent_rid]
  | textAnnot idx sid title did =>
    simp only [stepEvent, StepResult.state, stepTextAnnot]
    split <;> rfl
  | thinkingDelta idx txt =>
    simp only [stepEvent, StepResult.state, stepThinkingDelta]
    repeat' split
    all_goals rfl
  | thinkingFinal idx txt =>
    simp only [stepEvent, StepResult.state, stepThinkingFinal]
    split <;> rfl
  | analystDelta idx delta =>
    simp only [stepEvent, stepAnalystDelta]
    split
    · rfl
    · split <;> rfl
  | sqlExplanationDelta idx delta =>
    simp only [stepEvent, StepResult.state, stepSqlExplanationDelta]
    split <;> rfl
  | chartEv idx spec? =>
    cases spec? <;> rfl
  | metadataEv messageId =>
    cases messageId <;> rfl
  | done =>
    simp only [stepEvent, stepDone]
    split <;> rfl
  | _ => rfl

/-- C10: when the response carries no `X-Snowflake-Request-Id` header, the
stream processor uses the literal `unknown` as the request id; the id never
changes during event dispatch, so every content key of the stream is keyed
`(unknown, i)`; consequently two header-less streams in one session share the
same entries of the session-persistent content map — here the second stream
reuses (and overwrites) the single `(unknown, 0)` container created by the
first instead of creating its own. -/
theorem claim_C10_headerless_shared_namespace :
    (extractRequestId none = "unknown")
  ∧ (∀ (millis : Nat) (sess : SessionState),
      (initStream none millis sess).currentRequestId = "unknown")
  ∧ (∀ (s : StreamState) (e : Event),
      (stepEvent s e).state.currentRequestId = s.currentRequestId)
  ∧ ((streamEventsRealtime none 0 emptySessionState
        [Event.textDelta 0 ("hello")]).state.session.rendered (("unknown"), 0)
      = Rendered.markdown ("hello"))
  ∧ ((streamEventsRealtime none 1
        (streamEventsRealtime none 0 emptySessionState
          [Event.textDelta 0 ("hello")]).state.session
        [Event.textDelta 0 ("world")]).state.session.rendered (("unknown"), 0)
      = Rendered.markdown ("world"))
  ∧ ((streamEventsRealtime none 1
        (streamEventsRealtime none 0 emptySessionState
          [Event.textDelta 0 ("hello")]).state.session
        [Event.textDelta 0 ("world")]).state.session.contentMapKeys
      = [(("unknown"), 0)]) := by
  refine ⟨rfl, fun _ _ => rfl, stepEvent_rid, ?_, ?_, ?_⟩ <;> decide

theorem claim_C1_witness :
    bufGet (stepEvent plainStreamState (Event.textDelta 0 ("x"))).state.buffers
        (("other"), 0)
      = bufGet plainStreamState.buffers (("other"), 0)
  ∧ (stepEvent plainStreamState (Event.textDelta 0 ("x"))).state.session.rendered
        (("other"), 0)
      = plainStreamState.session.rendered (("other"), 0) :=
  claim_C1_slot_isolation plainStreamState (Event.textDelta 0 ("x")) ("other") 0
    (by decide)

/-- A state in which the agent has streamed a draft at content index 0 and a
`reevaluating_plan` status has set the re-evaluation flag. -/
def reevalStreamState : StreamState :=
  (stepEvent (stepEvent (initStream (some ("r")) 0 emptySessionState)
      (Event.textDelta 0 ("draft"))).state
    (Event.statusEv ("reevaluating_plan") (""))).state

theorem claim_C2_witness :
    (stepEvent reevalStreamState
        (Event.statusEv ("reevaluating_plan") (""))).state.agentIsReevaluating = true :=
  (claim_C2_reevaluation_clearing reevalStreamState 1 ("final") ("") (by decide)).1

/-! ## The outer exception boundary (C5) -/

/-- Runs a prefix in which every dispatch continues the loop. -/
def runAllNext : StreamState → List Event → Option StreamState
  | s, [] => some s
  | s, e :: rest =>
    match stepEvent s e with
    | .next s' => runAllNext s' rest
    | _ => none

theorem runLoop_append_of_runAllNext {s s₁ : StreamState} (l₁ l₂ : List Event)
    (h : runAllNext s l₁ = some s₁) :
    runLoop s (l₁ ++ l₂) = runLoop s₁ l₂ := by
  induction l₁ generalizing s with
  | nil =>
    simp only [runAllNext, Option.some.injEq] at h
    subst h
    simp
  | cons e t ih =>
    simp only [runAllNext] at h
    cases hstep : stepEvent s e with
    | next s' =>
      rw [hstep] at h
      simp only [List.cons_append, runLoop, hstep]
      exact ih h
    | stop s' =>
      rw [hstep] at h
      cases h
    | raised s' msg =>
      rw [hstep] at h
      cases h

/-- C5 (no exception escapes the entry point): when the dispatch of some event
raises — here after any prefix of successfully processed events — the single
outer handler catches it, the call still returns the accumulated (possibly
empty) text instead of propagating the exception, and the partially rendered
content (buffers and rendered slots) is preserved exactly as it stood when the
exception was raised, with the visible status marked failed. -/
theorem claim_C5_no_raise_past_boundary (hdr : Option String) (millis : Nat)
    (sess : SessionState) (evs₁ rest : List Event) (e : Event)
    (s₁ s₂ : StreamState) (msg : String)
    (hpre : runAllNext (initStream hdr millis sess) evs₁ = some s₁)
    (hraise : stepEvent s₁ e = StepResult.raised s₂ msg) :
    (streamEventsRealtime hdr millis sess (evs₁ ++ e :: rest)).text = s₂.botTextMessage
  ∧ (streamEventsRealtime hdr millis sess (evs₁ ++ e :: rest)).state.buffers
      = s₂.buffers
  ∧ (streamEventsRealtime hdr millis sess (evs₁ ++ e :: rest)).state.session.rendered
      = s₂.session.rendered
  ∧ (streamEventsRealtime hdr millis sess (evs₁ ++ e :: rest)).state.statusState
      = StatusState.errorState := by
  have hloop : runLoop (initStream hdr millis sess) (evs₁ ++ e :: rest)
      = LoopResult.failed s₂ msg := by
    rw [runLoop_append_of_runAllNext evs₁ (e :: rest) hpre]
    simp [runLoop, hraise]
  simp only [streamEventsRealtime, hloop]
  exact ⟨rfl, rfl, rfl, rfl⟩

def c5PrefixState : StreamState :=
  (stepEvent (initStream (some ("rid")) 0 emptySessionState)
    (Event.textDelta 0 ("partial"))).state

def c5RaisedState : StreamState :=
  (stepEvent c5PrefixState (Event.analystDelta 1 ("x"))).state

theorem claim_C5_witness :
    (streamEventsRealtime (some ("rid")) 0 emptySessionState
        ([Event.textDelta 0 ("partial")] ++ Event.analystDelta 1 ("x") :: [])).text
      = c5RaisedState.botTextMessage
  ∧ (streamEventsRealtime (some ("rid")) 0 emptySessionState
        ([Event.textDelta 0 ("partial")] ++ Event.analystDelta 1 ("x") :: [])).state.statusState
      = StatusState.errorState :=
  ⟨(claim_C5_no_raise_past_boundary (some ("rid")) 0 emptySessionState
      [Event.textDelta 0 ("partial")] [] (Event.analystDelta 1 ("x"))
      c5PrefixState c5RaisedState ("KeyError: content_map") (by rfl) (by rfl)).1,
   (claim_C5_no_raise_past_boundary (some ("rid")) 0 emptySessionState
      [Event.textDelta 0 ("partial")] [] (Event.analystDelta 1 ("x"))
      c5PrefixState c5RaisedState ("KeyError: content_map") (by rfl) (by rfl)).2.2.2⟩

/-! ## Idempotence of the completion-time citation pass (C4) -/

theorem citationPassGo_ok_props (rid : String) (tc : List (String × CitationData))
    (keys : List ContentKey) :
    ∀ (bufs : List (ContentKey × String)) (cit : CitState)
      (rend : ContentKey → Rendered) (acc : List (ContentKey × String)) (o : PassOut),
      citationPassGo rid tc keys cit rend acc bufs = PassResult.ok o →
      ((∀ y n, alookup cit.mapping y = some n → alookup o.cit.mapping y = some n)
      ∧ (∀ k c, (k, c) ∈ bufs → k.1 = rid ∧ c ≠ "" ∧ hasCitationMarkup c = true →
          k ∈ keys ∧ ∀ x ∈ citeMatches c, (alookup o.cit.mapping x).isSome)) := by
  intro bufs
  induction bufs with
  | nil =>
    intro cit rend acc o h
    simp only [citationPassGo] at h
    cases h
    exact ⟨fun y n hy => hy, fun k c hm => absurd hm (List.not_mem_nil _)⟩
  | cons hd t ih =>
    intro cit rend acc o h
    obtain ⟨k', c'⟩ := hd
    simp only [citationPassGo] at h
    split at h
    · rename_i hq
      split at h
      · rename_i hkin
        have ihp := ih _ _ _ _ h
        refine ⟨?_, ?_⟩
        · intro y n hy
          exact ihp.1 y n (processText_mono tc c' hy)
        · intro k c hm hqual
          rcases List.mem_cons.mp hm with he | ht
          · obtain ⟨hk, hc⟩ := Prod.mk.injEq .. ▸ he
            subst hk
            subst hc
            refine ⟨hkin, ?_⟩
            intro x hx
            have hcov := processText_covers tc cit c hx
            obtain ⟨n, hn⟩ := Option.isSome_iff_exists.mp hcov
            exact Option.isSome_iff_exists.mpr ⟨n, ihp.1 x n hn⟩
          · exact ihp.2 k c ht hqual
      · cases h
    · rename_i hq
      have ihp := ih _ _ _ _ h
      refine ⟨ihp.1, ?_⟩
      intro k c hm hqual
      rcases List.mem_cons.mp hm with he | ht
      · obtain ⟨hk, hc⟩ := Prod.mk.injEq .. ▸ he
        subst hk
        subst hc
        exact absurd hqual hq
      · exact ihp.2 k c ht hqual

theorem citationPassGo_fixed (rid : String) (tc : List (String × CitationData))
    (keys : List ContentKey) :
    ∀ (bufs : List (ContentKey × String)) (cit : CitState)
      (rend : ContentKey → Rendered) (acc : List (ContentKey × String)),
      (∀ k c, (k, c) ∈ bufs → k.1 = rid ∧ c ≠ "" ∧ hasCitationMarkup c = true →
        k ∈ keys ∧ ∀ x ∈ citeMatches c, (alookup cit.mapping x).isSome) →
      ∃ o, citationPassGo rid tc keys cit rend acc bufs = PassResult.ok o
        ∧ o.cit = cit := by
  intro bufs
  induction bufs with
  | nil =>
    intro cit rend acc _
    exact ⟨⟨cit, rend, acc⟩, rfl, rfl⟩
  | cons hd t ih =>
    intro cit rend acc h
    obtain ⟨k', c'⟩ := hd
    simp only [citationPassGo]
    split
    · rename_i hq
      have hh := h k' c' (List.mem_cons_self _ _) hq
      rw [if_pos hh.1]
      have hfix : (processCitationIdsInText tc cit c').1 = cit :=
        processText_fixed tc cit c' hh.2
      rw [hfix]
      exact ih _ _ _ (fun k c hm hqual => h k c (List.mem_cons_of_mem _ hm) hqual)
    · exact ih _ _ _ (fun k c hm hqual => h k c (List.mem_cons_of_mem _ hm) hqual)

theorem citationPassGo_idem (rid : String) (tc : List (String × CitationData))
    (keys : List ContentKey) (bufs : List (ContentKey × String)) (cit : CitState)
    (rend : ContentKey → Rendered) (acc : List (ContentKey × String)) (o : PassOut)
    (h : citationPassGo rid tc keys cit rend acc bufs = PassResult.ok o) :
    ∀ (rend' : ContentKey → Rendered) (acc' : List (ContentKey × String)),
      ∃ o₂, citationPassGo rid tc keys o.cit rend' acc' bufs = PassResult.ok o₂
        ∧ o₂.cit = o.cit := by
  intro rend' acc'
  exact citationPassGo_fixed rid tc keys bufs o.cit rend' acc'
    (fun k c hm hq => (citationPassGo_ok_props rid tc keys bufs cit rend acc o h).2 k c hm hq)

theorem citationPassGo_markdown_stable (rid : String)
    (tc : List (String × CitationData)) (keys : List ContentKey) :
    ∀ (bufs : List (ContentKey × String)) (cit : CitState)
      (rend : ContentKey → Rendered) (acc : List (ContentKey × String)) (o : PassOut)
      (k : ContentKey) (t : String),
      citationPassGo rid tc keys cit rend acc bufs = PassResult.ok o →
      rend k = Rendered.markdown t →
      ∃ u, o.rendered k = Rendered.markdown u := by
  intro bufs
  induction bufs with
  | nil =>
    intro cit rend acc o k t h hr
    simp only [citationPassGo] at h
    cases h
    exact ⟨t, hr⟩
  | cons hd t0 ih =>
    intro cit rend acc o k t h hr
    obtain ⟨k', c'⟩ := hd
    simp only [citationPassGo] at h
    split at h
    · split at h
      · by_cases hkk : k = k'
        · subst hkk
          exact ih _ _ _ _ _ ((processCitationIdsInText tc cit c').2) h
            (by simp [renderSet_at])
        · exact ih _ _ _ _ _ t h (by simpa [renderSet_at, hkk] using hr)
      · cases h
    · exact ih _ _ _ _ _ t h hr

theorem citationPassGo_renders (rid : String) (tc : List (String × CitationData))
    (keys : List ContentKey) :
    ∀ (bufs : List (ContentKey × String)) (cit : CitState)
      (rend : ContentKey → Rendered) (acc : List (ContentKey × String)) (o : PassOut),
      citationPassGo rid tc keys cit rend acc bufs = PassResult.ok o →
      ∀ k c, (k, c) ∈ bufs → k.1 = rid ∧ c ≠ "" ∧ hasCitationMarkup c = true →
      ∃ u, o.rendered k = Rendered.markdown u := by
  intro bufs
  induction bufs with
  | nil =>
    intro cit rend acc o h k c hm
    exact absurd hm (List.not_mem_nil _)
  | cons hd t ih =>
    intro cit rend acc o h k c hm hqual
    obtain ⟨k', c'⟩ := hd
    simp only [citationPassGo] at h
    split at h
    · rename_i hq
      split at h
      · rcases List.mem_cons.mp hm with he | ht
        · obtain ⟨hk, hc⟩ := Prod.mk.injEq .. ▸ he
          subst hk
          subst hc
          exact citationPassGo_markdown_stable rid tc keys t _ _ _ o k
            (processCitationIdsInText tc cit c).2 h (by simp [renderSet_at])
        · exact ih _ _ _ _ h k c ht hqual
      · cases h
    · rename_i hq
      rcases List.mem_cons.mp hm with he | ht
      · obtain ⟨hk, hc⟩ := Prod.mk.injEq .. ▸ he
        subst hk
        subst hc
        exact absurd hqual hq
      · exact ih _ _ _ _ h k c ht hqual

theorem handleMissingTableReferences_bot (s : StreamState) :
    (handleMissingTableReferences s).botTextMessage = s.botTextMessage := by
  simp only [handleMissingTableReferences]
  split <;> rfl

theorem handleMissingTableReferences_status (s : StreamState) :
    (handleMissingTableReferences s).statusState = s.statusState := by
  simp only [handleMissingTableReferences]
  split <;> rfl

theorem runLoop_append_of_none {s : StreamState} (l₁ l₂ : List Event)
    (h : runAllNext s l₁ = none) :
    runLoop s (l₁ ++ l₂) = runLoop s l₁ := by
  induction l₁ generalizing s with
  | nil => simp [runAllNext] at h
  | cons e t ih =>
    simp only [runAllNext] at h
    cases hstep : stepEvent s e with
    | next s' =>
      rw [hstep] at h
      simp only [List.cons_append, runLoop, hstep]
      exact ih h
    | stop s' => simp [runLoop, hstep]
    | raised s' msg => simp [runLoop, hstep]

/-- C4 (fallback finalization equivalence): appending a `done` event to any
stream never changes the final text the processor returns — ending without
`done` runs the identical finalization (the citation pass is idempotent on the
citation state, so the text resolved from the same buffer contents coincides);
moreover whenever the completion pass succeeds, the post-loop fallback marks
the status complete and every buffer of the current request containing
citation markup ends up re-rendered as resolved markdown. -/
theorem claim_C4_fallback_finalization (hdr : Option String) (millis : Nat)
    (sess : SessionState) (evs : List Event) :
    ((streamEventsRealtime hdr millis sess evs).text
      = (streamEventsRealtime hdr millis sess (evs ++ [Event.done])).text)
  ∧ (∀ (s : StreamState) (o : PassOut), donePass s = PassResult.ok o →
        ((postLoopFinalize s).state.statusState = StatusState.complete
      ∧ ∀ k c, (k, c) ∈ s.buffers → k.1 = s.currentRequestId → c ≠ "" →
          hasCitationMarkup c = true →
          ∃ u, o.rendered k = Rendered.markdown u)) := by
  constructor
  · cases hr : runAllNext (initStream hdr millis sess) evs with
    | none =>
      have h2 : runLoop (initStream hdr millis sess) (evs ++ [Event.done])
          = runLoop (initStream hdr millis sess) evs :=
        runLoop_append_of_none evs _ hr
      simp only [streamEventsRealtime, h2]
    | some s' =>
      have hL : runLoop (initStream hdr millis sess) evs = LoopResult.finished s' := by
        have h := runLoop_append_of_runAllNext evs [] hr
        rw [List.append_nil] at h
        rw [h]
        rfl
      have hR0 : runLoop (initStream hdr millis sess) (evs ++ [Event.done])
          = runLoop s' [Event.done] :=
        runLoop_append_of_runAllNext evs [Event.done] hr
      cases hdp : donePass s' with
      | ok o =>
        have hstep : runLoop s' [Event.done] = LoopResult.finished
            { s' with
              session := { s'.session with citState := o.cit, rendered := o.rendered }
              statusState := StatusState.complete } := by
          simp [runLoop, stepEvent, stepDone, hdp]
        obtain ⟨o₂, ho₂, hcit⟩ := citationPassGo_idem s'.currentRequestId
          s'.session.toolResultCitations s'.session.contentMapKeys s'.buffers
          s'.session.citState s'.session.rendered [] o hdp o.rendered []
        have e1 : donePass { s' with statusState := StatusState.complete }
            = PassResult.ok o := hdp
        have e2 : donePass
            { (({ s' with
                  session :=
                    { s'.session with citState := o.cit, rendered := o.rendered }
                  statusState := StatusState.complete } : StreamState)) with
              statusState := StatusState.complete }
            = PassResult.ok o₂ := ho₂
        simp only [streamEventsRealtime, hL, hR0, hstep, postLoopFinalize, e1, e2,
          hcit, handleMissingTableReferences_bot]
      | keyErr cit rend pr kk =>
        have hstep : runLoop s' [Event.done] = LoopResult.failed
            { s' with
              session := { s'.session with citState := cit, rendered := rend } }
            ("KeyError: content_map") := by
          simp [runLoop, stepEvent, stepDone, hdp]
        have e1 : donePass { s' with statusState := StatusState.complete }
            = PassResult.keyErr cit rend pr kk := hdp
        simp only [streamEventsRealtime, hL, hR0, hstep, postLoopFinalize, e1,
          markFailedOutput]
  · intro s o h
    have e1 : donePass { s with statusState := StatusState.complete }
        = PassResult.ok o := h
    constructor
    · simp only [postLoopFinalize, e1, handleMissingTableReferences_status]
    · intro k c hm hk1 hc hmark
      exact citationPassGo_renders s.currentRequestId s.session.toolResultCitations
        s.session.contentMapKeys s.buffers s.session.citState s.session.rendered []
        o h k c hm ⟨hk1, hc, hmark⟩

/-- End-of-loop state of a small stream that registered a tool-result
citation and streamed a cite-tagged text delta. -/
def c4WitnessState : StreamState :=
  (runLoop (initStream (some ("reqA")) 0 emptySessionState)
    [Event.toolResult ("tu1") ("search") ("success")
       [{ itemId := "cs_abc", docId := "http://x", docTitle := "Doc A" }] [],
     Event.textDelta 0 ("see <cite>cs_abc</cite>")]).state

theorem claim_C4_witness :
    (postLoopFinalize c4WitnessState).state.statusState = StatusState.complete :=
  ((claim_C4_fallback_finalization (some ("reqA")) 0 emptySessionState []).2
    c4WitnessState
    ⟨(donePass c4WitnessState).citOf, (donePass c4WitnessState).renderedOf,
     (donePass c4WitnessState).processedOf⟩ (by rfl)).1

/-! ## Provenance of the request-scoped citation mapping (C7)

The request mapping only gains entries from text-annotation events and from
the cite-tag matches processed at finalization; the legacy
`citation_id_mapping` is never written during streaming at all. -/

theorem foldlSession_pres {α β : Type} (f : SessionState → β)
    (g : SessionState → α → SessionState)
    (h : ∀ acc a, f (g acc a) = f acc) :
    ∀ (l : List α) (sess : SessionState), f (l.foldl g sess) = f sess := by
  intro l
  induction l with
  | nil => intro sess; rfl
  | cons a t ih =>
    intro sess
    simp only [List.foldl_cons]
    rw [ih, h]

theorem foldlStream_pres {α β : Type} (f : StreamState → β)
    (g : StreamState → α → StreamState)
    (h : ∀ st a, f (g st a) = f st) :
    ∀ (l : List α) (st : StreamState), f (l.foldl g st) = f st := by
  intro l
  induction l with
  | nil => intro st; rfl
  | cons a t ih =>
    intro st
    simp only [List.foldl_cons]
    rw [ih, h]

theorem addToolCitation_citState (sess : SessionState) (cid : String)
    (d : CitationData) : (addToolCitation sess cid d).citState = sess.citState := rfl

theorem addThreadToolCitation_citState (sess : SessionState) (cid : String)
    (d : CitationData) :
    (addThreadToolCitation sess cid d).citState = sess.citState := by
  unfold addThreadToolCitation
  cases sess.currentThreadId <;> rfl

theorem addThreadToolResult_citState (sess : SessionState) (tid : String)
    (r : StoredToolResult) :
    (addThreadToolResult sess tid r).citState = sess.citState := by
  unfold addThreadToolResult
  cases sess.currentThreadId <;> rfl

theorem addThreadCitation_citState (sess : SessionState) (c : StreamCitation) :
    (addThreadCitation sess c).citState = sess.citState := by
  unfold addThreadCitation
  cases sess.currentThreadId <;> rfl

theorem addRequestTable_citState (sess : SessionState) (tbl : TableData)
    (rq : Option String) : (addRequestTable sess tbl rq).citState = sess.citState := rfl

theorem addRequestChart_citState (sess : SessionState) (c : ChartSpec)
    (rq : Option String) : (addRequestChart sess c rq).citState = sess.citState := rfl

theorem setRequestTableReferenced_citState (sess : SessionState) (b : Bool)
    (rq : Option String) :
    (setRequestTableReferenced sess b rq).citState = sess.citState := rfl

theorem addRequestToolId_citState (sess : SessionState) (tid : String)
    (rq : Option String) :
    (addRequestToolId sess tid rq).citState = sess.citState := by
  simp only [addRequestToolId]
  split <;> rfl

theorem handleStreamingCitation_citState (sess : SessionState) (sid title did : String) :
    (handleStreamingCitation sess sid title did).citState = sess.citState := by
  unfold handleStreamingCitation
  split
  · rw [addThreadCitation_citState]
  · rfl

theorem detect_citState (sess : SessionState) (t : String) :
    (detectAndHandleTableReferences sess t).citState = sess.citState := by
  unfold detectAndHandleTableReferences
  split
  · rfl
  · rw [foldlSession_pres SessionState.citState]
    · split
      · rw [setRequestTableReferenced_citState]
      · rfl
    · intro acc a
      rw [addRequestToolId_citState]

theorem extractInlineCitations_citState (sess : SessionState)
    (items : List ContentItem) :
    (extractInlineCitations sess items).citState = sess.citState := by
  unfold extractInlineCitations
  rw [foldlSession_pres SessionState.citState]
  intro acc a
  split
  · rw [addThreadToolCitation_citState, addToolCitation_citState]
  · rfl

theorem extractSearchResultCitations_citState (sess : SessionState)
    (items : List ContentItem) :
    (extractSearchResultCitations sess items).citState = sess.citState := by
  unfold extractSearchResultCitations
  rw [foldlSession_pres SessionState.citState]
  intro acc a
  rw [foldlSession_pres SessionState.citState]
  intro acc2 r
  split
  · rw [addThreadToolCitation_citState, addToolCitation_citState]
  · rfl

theorem processEmbeddedTableData_citState (sess : SessionState)
    (items : List ContentItem) :
    (processEmbeddedTableData sess items).citState = sess.citState := by
  unfold processEmbeddedTableData
  rw [foldlSession_pres SessionState.citState]
  intro acc a
  cases a.jsonTable <;> simp [addRequestTable_citState]

theorem clearStep_citState (rid : String) (st : StreamState) (oldIdx : Nat) :
    (clearStep rid st oldIdx).session.citState = st.session.citState := by
  simp only [clearStep]
  split <;> rfl

theorem clearOldContent_citState (s : StreamState) :
    (clearOldContent s).session.citState = s.session.citState := by
  unfold clearOldContent
  rw [foldlStream_pres (fun st => st.session.citState)]
  intro st a
  rw [clearStep_citState]

theorem stepTextDelta_citState (s : StreamState) (idx : Nat) (txt : String) :
    (stepTextDelta s idx txt).session.citState = s.session.citState := by
  simp only [stepTextDelta]
  split <;> split <;> simp [detect_citState, clearOldContent_citState]

theorem stepToolResult_citState (s : StreamState) (toolUseId name status : String)
    (dataItems items : List ContentItem) :
    (stepToolResult s toolUseId name status dataItems items).session.citState
      = s.session.citState := by
  simp only [stepToolResult, processEmbeddedTableData_citState,
    extractSearchResultCitations_citState]
  split <;> simp [addThreadToolResult_citState, extractInlineCitations_citState]

theorem handleTableEvent_citState (s : StreamState) (idx : Nat) (tbl : TableData) :
    (handleTableEvent s idx tbl).session.citState = s.session.citState := by
  simp only [handleTableEvent, addRequestTable_citState]
  split <;> rfl

theorem handleChartEvent_citState (s : StreamState) (idx : Nat)
    (spec? : Option ChartSpec) :
    (handleChartEvent s idx spec?).session.citState = s.session.citState := by
  cases spec? with
  | none => rfl
  | some spec =>
    simp only [handleChartEvent, addRequestChart_citState]
    split <;> rfl

theorem addToolCitation_legacy (sess : SessionState) (cid : String)
    (d : CitationData) :
    (addToolCitation sess cid d).citationIdMapping = sess.citationIdMapping := rfl

theorem addThreadToolCitation_legacy (sess : SessionState) (cid : String)
    (d : CitationData) :
    (addThreadToolCitation sess cid d).citationIdMapping = sess.citationIdMapping := by
  unfold addThreadToolCitation
  cases sess.currentThreadId <;> rfl

theorem addThreadToolResult_legacy (sess : SessionState) (tid : String)
    (r : StoredToolResult) :
    (addThreadToolResult sess tid r).citationIdMapping = sess.citationIdMapping := by
  unfold addThreadToolResult
  cases sess.currentThreadId <;> rfl

theorem addThreadCitation_legacy (sess : SessionState) (c : StreamCitation) :
    (addThreadCitation sess c).citationIdMapping = sess.citationIdMapping := by
  unfold addThreadCitation
  cases sess.currentThreadId <;> rfl

theorem addRequestTable_legacy (sess : SessionState) (tbl : TableData)
    (rq : Option String) :
    (addRequestTable sess tbl rq).citationIdMapping = sess.citationIdMapping := rfl

theorem addRequestChart_legacy (sess : SessionState) (c : ChartSpec)
    (rq : Option String) :
    (addRequestChart sess c rq).citationIdMapping = sess.citationIdMapping := rfl

theorem setRequestTableReferenced_legacy (sess : SessionState) (b : Bool)
    (rq : Option String) :
    (setRequestTableReferenced sess b rq).citationIdMapping = sess.citationIdMapping := rfl

theorem addRequestToolId_legacy (sess : SessionState) (tid : String)
    (rq : Option String) :
    (addRequestToolId sess tid rq).citationIdMapping = sess.citationIdMapping := by
  simp only [addRequestToolId]
  split <;> rfl

theorem handleStreamingCitation_legacy (sess : SessionState) (sid title did : String) :
    (handleStreamingCitation sess sid title did).citationIdMapping
      = sess.citationIdMapping := by
  unfold handleStreamingCitation
  split
  · rw [addThreadCitation_legacy]
  · rfl

theorem detect_legacy (sess : SessionState) (t : String) :
    (detectAndHandleTableReferences sess t).citationIdMapping
      = sess.citationIdMapping := by
  unfold detectAndHandleTableReferences
  split
  · rfl
  · rw [foldlSession_pres SessionState.citationIdMapping]
    · split
      · rw [setRequestTableReferenced_legacy]
      · rfl
    · intro acc a
      rw [addRequestToolId_legacy]

theorem extractInlineCitations_legacy (sess : SessionState)
    (items : List ContentItem) :
    (extractInlineCitations sess items).citationIdMapping = sess.citationIdMapping := by
  unfold extractInlineCitations
  rw [foldlSession_pres SessionState.citationIdMapping]
  intro acc a
  split
  · rw [addThreadToolCitation_legacy, addToolCitation_legacy]
  · rfl

theorem extractSearchResultCitations_legacy (sess : SessionState)
    (items : List ContentItem) :
    (extractSearchResultCitations sess items).citationIdMapping
      = sess.citationIdMapping := by
  unfold extractSearchResultCitations
  rw [foldlSession_pres SessionState.citationIdMapping]
  intro acc a
  rw [foldlSession_pres SessionState.citationIdMapping]
  intro acc2 r
  split
  · rw [addThreadToolCitation_legacy, addToolCitation_legacy]
  · rfl

theorem processEmbeddedTableData_legacy (sess : SessionState)
    (items : List ContentItem) :
    (processEmbeddedTableData sess items).citationIdMapping
      = sess.citationIdMapping := by
  unfold processEmbeddedTableData
  rw [foldlSession_pres SessionState.citationIdMapping]
  intro acc a
  cases a.jsonTable <;> simp [addRequestTable_legacy]

theorem clearStep_legacy (rid : String) (st : StreamState) (oldIdx : Nat) :
    (clearStep rid st oldIdx).session.citationIdMapping
      = st.session.citationIdMapping := by
  simp only [clearStep]
  split <;> rfl

theorem clearOldContent_legacy (s : StreamState) :
    (clearOldContent s).session.citationIdMapping = s.session.citationIdMapping := by
  unfold clearOldContent
  rw [foldlStream_pres (fun st => st.session.citationIdMapping)]
  intro st a
  rw [clearStep_legacy]

/-- The legacy `citation_id_mapping` is never written by any event handler. -/
theorem stepEvent_legacy (s : StreamState) (e : Event) :
    (stepEvent s e).state.session.citationIdMapping
      = s.session.citationIdMapping := by
  cases e with
  | statusEv statusType message =>
    simp only [stepEvent, StepResult.state]
    split <;> rfl
  | textDelta idx txt =>
    simp only [stepEvent, StepResult.state, stepTextDelta]
    split <;> split <;> simp [detect_legacy, clearOldContent_legacy]
  | textAnnot idx sid title did =>
    simp only [stepEvent, StepResult.state, stepTextAnnot]
    split <;>
      simp [handleStreamingCitation_legacy, addThreadToolCitation_legacy,
        addToolCitation_legacy]
  | thinkingDelta idx txt =>
    simp only [stepEvent, StepResult.state]
    rw [stepThinkingDelta_session]
  | thinkingFinal idx txt =>
    simp only [stepEvent, StepResult.state]
    rw [stepThinkingFinal_session]
  | toolUse name toolUseId =>
    simp only [stepEvent, StepResult.state, stepToolUse]
    split <;> rfl
  | toolResult toolUseId name status dataItems items =>
    simp only [stepEvent, StepResult.state, stepToolResult,
      processEmbeddedTableData_legacy, extractSearchResultCitations_legacy]
    split <;> simp [addThreadToolResult_legacy, extractInlineCitations_legacy]
  | analystDelta idx delta =>
    simp only [stepEvent, stepAnalystDelta]
    split
    · rfl
    · split <;> rfl
  | sqlExplanationDelta idx delta =>
    simp only [stepEvent, StepResult.state, stepSqlExplanationDelta]
    split <;> rfl
  | tableEv idx tbl =>
    simp only [stepEvent, StepResult.state, handleTableEvent, addRequestTable_legacy]
    split <;> rfl
  | chartEv idx spec? =>
    cases spec? with
    | none => rfl
    | some spec =>
      simp only [stepEvent, StepResult.state, handleChartEvent, addRequestChart_legacy]
      split <;> rfl
  | metadataEv messageId =>
    cases messageId <;> rfl
  | done =>
    simp only [stepEvent, stepDone]
    split <;> rfl
  | _ => rfl

theorem runLoop_legacy : ∀ (evs : List Event) (s : StreamState),
    (runLoop s evs).state.session.citationIdMapping = s.session.citationIdMapping := by
  intro evs
  induction evs with
  | nil => intro s; rfl
  | cons e t ih =>
    intro s
    cases hstep : stepEvent s e with
    | next s' =>
      have h1 : (stepEvent s e).state.session.citationIdMapping
          = s.session.citationIdMapping := stepEvent_legacy s e
      rw [hstep] at h1
      simp only [runLoop, hstep]
      rw [ih s']
      exact h1
    | stop s' =>
      have h1 : (stepEvent s e).state.session.citationIdMapping
          = s.session.citationIdMapping := stepEvent_legacy s e
      rw [hstep] at h1
      simp only [runLoop, hstep]
      exact h1
    | raised s' msg =>
      have h1 : (stepEvent s e).state.session.citationIdMapping
          = s.session.citationIdMapping := stepEvent_legacy s e
      rw [hstep] at h1
      simp only [runLoop, hstep]
      exact h1

/-- The annotation source-id an event may feed into the citation registry. -/
def annotIdOf : Event → Option String
  | .textAnnot _ sid _ _ => some sid
  | _ => none

theorem citationPassGo_none (rid : String) (tc : List (String × CitationData))
    (keys : List ContentKey) (X : String) :
    ∀ (bufs : List (ContentKey × String)) (cit : CitState)
      (rend : ContentKey → Rendered) (acc : List (ContentKey × String)),
      alookup cit.mapping X = none →
      (∀ k c, (k, c) ∈ bufs → X ∉ citeMatches c) →
      alookup (citationPassGo rid tc keys cit rend acc bufs).citOf.mapping X = none := by
  intro bufs
  induction bufs with
  | nil =>
    intro cit rend acc hm _
    exact hm
  | cons hd t ih =>
    intro cit rend acc hm hbufs
    obtain ⟨k', c'⟩ := hd
    have hm2 : alookup (processCitationIdsInText tc cit c').1.mapping X = none :=
      processText_none tc c' hm (hbufs k' c' (List.mem_cons_self _ _))
    simp only [citationPassGo]
    split
    · split
      · exact ih _ _ _ hm2 (fun k c hmem => hbufs k c (List.mem_cons_of_mem _ hmem))
      · exact hm2
    · exact ih _ _ _ hm (fun k c hmem => hbufs k c (List.mem_cons_of_mem _ hmem))

/-- Dispatch outcomes that continue the loop never add the id `X` to the
request mapping unless an annotation event carried exactly `X`. -/
theorem stepEvent_next_citState_none (s : StreamState) (e : Event) (s' : StreamState)
    (X : String)
    (hstep : stepEvent s e = StepResult.next s')
    (hm : alookup s.session.citState.mapping X = none)
    (hann : annotIdOf e ≠ some X) :
    alookup s'.session.citState.mapping X = none := by
  have hst : (stepEvent s e).state = s' := by rw [hstep]; rfl
  cases e with
  | textAnnot idx sid title did =>
    have hXs : X ≠ sid := by
      intro h
      exact hann (by simp [annotIdOf, h])
    rw [← hst]
    simp only [stepEvent, StepResult.state, stepTextAnnot]
    split
    · simp only [handleStreamingCitation_citState]
      have hbase : alookup
          (addThreadToolCitation (addToolCitation s.session sid ⟨sid, did, title⟩)
            sid ⟨sid, did, title⟩).citState.mapping X = none := by
        rw [addThreadToolCitation_citState, addToolCitation_citState]
        exact hm
      exact getOrAssign_none_of_ne hbase hXs
    · simp only [handleStreamingCitation_citState]
      exact hm
  | done =>
    exfalso
    simp only [stepEvent, stepDone] at hstep
    split at hstep <;> cases hstep
  | topLevelError code message =>
    exfalso
    cases hstep
  | statusEv statusType message =>
    rw [← hst]
    simp only [stepEvent, StepResult.state]
    split <;> exact hm
  | textDelta idx txt =>
    rw [← hst]
    simp only [stepEvent, StepResult.state, stepTextDelta_citState]
    exact hm
  | thinkingDelta idx txt =>
    rw [← hst]
    simp only [stepEvent, StepResult.state, stepThinkingDelta_session]
    exact hm
  | thinkingFinal idx txt =>
    rw [← hst]
    simp only [stepEvent, StepResult.state, stepThinkingFinal_session]
    exact hm
  | toolUse name toolUseId =>
    rw [← hst]
    simp only [stepEvent, StepResult.state, stepToolUse]
    split <;> exact hm
  | toolResult toolUseId name status dataItems items =>
    rw [← hst]
    simp only [stepEvent, StepResult.state, stepToolResult_citState]
    exact hm
  | analystDelta idx delta =>
    rw [← hst]
    simp only [stepEvent, stepAnalystDelta]
    split
    · exact hm
    · split <;> exact hm
  | sqlExplanationDelta idx delta =>
    rw [← hst]
    simp only [stepEvent, StepResult.state, stepSqlExplanationDelta]
    split <;> exact hm
  | tableEv idx tbl =>
    rw [← hst]
    simp only [stepEvent, StepResult.state, handleTableEvent_citState]
    exact hm
  | chartEv idx spec? =>
    rw [← hst]
    simp only [stepEvent, StepResult.state, handleChartEvent_citState]
    exact hm
  | metadataEv messageId =>
    rw [← hst]
    cases messageId <;> exact hm
  | _ =>
    rw [← hst]
    exact hm

/-- Dispatch outcomes that terminate the loop (break or raise) never add `X`
to the request mapping unless `X` appears in a cite tag of some buffer at
termination or the event was an annotation for `X`. -/
theorem stepEvent_term_citState_none (s : StreamState) (e : Event) (s' : StreamState)
    (X : String)
    (hstep : stepEvent s e = StepResult.stop s'
      ∨ ∃ msg, stepEvent s e = StepResult.raised s' msg)
    (hm : alookup s.session.citState.mapping X = none)
    (hann : annotIdOf e ≠ some X)
    (hbufs : ∀ k c, (k, c) ∈ s'.buffers → X ∉ citeMatches c) :
    alookup s'.session.citState.mapping X = none := by
  cases e with
  | topLevelError code message =>
    rcases hstep with h | ⟨msg, h⟩
    · cases h
      exact hm
    · cases h
  | done =>
    have hb : ∀ k c, (k, c) ∈ s.buffers → X ∉ citeMatches c := by
      rcases hstep with h | ⟨msg, h⟩ <;>
        · simp only [stepEvent, stepDone] at h
          split at h <;> cases h <;> exact hbufs
    have hpass := citationPassGo_none s.currentRequestId
      s.session.toolResultCitations s.session.contentMapKeys X
      s.buffers s.session.citState s.session.rendered [] hm hb
    rcases hstep with h | ⟨msg, h⟩ <;>
      · simp only [stepEvent, stepDone] at h
        cases hdp : donePass s <;> rw [donePass] at hdp <;> rw [hdp] at hpass <;>
          simp only [stepEvent, stepDone, donePass, hdp] at h <;>
          first
          | (cases h; simpa [PassResult.citOf] using hpass)
          | cases h
  | analystDelta idx delta =>
    rcases hstep with h | ⟨msg, h⟩ <;>
      simp only [stepEvent, stepAnalystDelta] at h
    · split at h
      · cases h
      · split at h <;> cases h
    · split at h
      · cases h
      · split at h
        · cases h
        · cases h
          exact hm
  | textAnnot idx sid title did =>
    rcases hstep with h | ⟨msg, h⟩ <;> cases h
  | statusEv statusType message =>
    rcases hstep with h | ⟨msg, h⟩ <;> simp only [stepEvent] at h <;> cases h
  | textDelta idx txt =>
    rcases hstep with h | ⟨msg, h⟩ <;> cases h
  | thinkingDelta idx txt =>
    rcases hstep with h | ⟨msg, h⟩ <;> cases h
  | thinkingFinal idx txt =>
    rcases hstep with h | ⟨msg, h⟩ <;> cases h
  | toolUse name toolUseId =>
    rcases hstep with h | ⟨msg, h⟩ <;> cases h
  | toolResult toolUseId name status dataItems items =>
    rcases hstep with h | ⟨msg, h⟩ <;> cases h
  | toolResultStatus toolType status message =>
    rcases hstep with h | ⟨msg, h⟩ <;> cases h
  | sqlExplanationDelta idx delta =>
    rcases hstep with h | ⟨msg, h⟩ <;> cases h
  | tableEv idx tbl =>
    rcases hstep with h | ⟨msg, h⟩ <;> cases h
  | chartEv idx spec? =>
    rcases hstep with h | ⟨msg, h⟩ <;> cases h
  | responseError message =>
    rcases hstep with h | ⟨msg, h⟩ <;> cases h
  | executionTrace =>
    rcases hstep with h | ⟨msg, h⟩ <;> cases h
  | metadataEv messageId =>
    rcases hstep with h | ⟨msg, h⟩ <;> cases messageId <;> cases h
  | malformedJson =>
    rcases hstep with h | ⟨msg, h⟩ <;> cases h
  | unrecognized name =>
    rcases hstep with h | ⟨msg, h⟩ <;> cases h

/-- Over a whole event-loop run, an id `X` never mentioned by an annotation
event and absent from the cite tags of the final buffers enters the request
mapping only if it was there at the start. -/
theorem runLoop_citState_none (X : String) :
    ∀ (evs : List Event) (s : StreamState),
      alookup s.session.citState.mapping X = none →
      (∀ e ∈ evs, annotIdOf e ≠ some X) →
      (∀ k c, (k, c) ∈ (runLoop s evs).state.buffers → X ∉ citeMatches c) →
      alookup (runLoop s evs).state.session.citState.mapping X = none := by
  intro evs
  induction evs with
  | nil =>
    intro s hm _ _
    exact hm
  | cons e t ih =>
    intro s hm hann hbufs
    have hanne : annotIdOf e ≠ some X := hann e (List.mem_cons_self _ _)
    have hannt : ∀ e' ∈ t, annotIdOf e' ≠ some X :=
      fun e' he' => hann e' (List.mem_cons_of_mem _ he')
    cases hstep : stepEvent s e with
    | next s' =>
      have hb' : ∀ k c, (k, c) ∈ (runLoop s' t).state.buffers → X ∉ citeMatches c := by
        intro k c hmem
        refine hbufs k c ?_
        simp only [runLoop, hstep]
        exact hmem
      have hm' := stepEvent_next_citState_none s e s' X hstep hm hanne
      have hres := ih s' hm' hannt hb'
      simp only [runLoop, hstep]
      exact hres
    | stop s' =>
      have hb : ∀ k c, (k, c) ∈ s'.buffers → X ∉ citeMatches c := by
        intro k c hmem
        refine hbufs k c ?_
        simp only [runLoop, hstep, LoopResult.state]
        exact hmem
      have hres := stepEvent_term_citState_none s e s' X (Or.inl hstep) hm hanne hb
      simp only [runLoop, hstep, LoopResult.state]
      exact hres
    | raised s' msg =>
      have hb : ∀ k c, (k, c) ∈ s'.buffers → X ∉ citeMatches c := by
        intro k c hmem
        refine hbufs k c ?_
        simp only [runLoop, hstep, LoopResult.state]
        exact hmem
      have hres := stepEvent_term_citState_none s e s' X (Or.inr ⟨msg, hstep⟩) hm hanne hb
      simp only [runLoop, hstep, LoopResult.state]
      exact hres

/-! ## Display-side lemmas (display.py) -/

theorem handleMissingTableReferences_session (s : StreamState) :
    (handleMissingTableReferences s).session = s.session := by
  simp only [handleMissingTableReferences]
  split <;> rfl

theorem firstKeyWithNumber_ne_of_none {l : List (String × Nat)} {X : String}
    (h : alookup l X = none) (n : Nat) : firstKeyWithNumber l n ≠ some X := by
  induction l with
  | nil =>
    simp [firstKeyWithNumber]
  | cons p t ih =>
    obtain ⟨k, v⟩ := p
    simp only [alookup] at h
    by_cases hxk : X = k
    · simp [hxk] at h
    · simp only [hxk, if_false] at h
      simp only [firstKeyWithNumber]
      split
      · intro hc
        injection hc with hc
        exact hxk hc.symm
      · exact ih h

/-- Every citation displayed by the item-building loop carries the id of some
entry of the ordered list. -/
theorem displayLoop_mem : ∀ (l : List (Nat × String × CitationData))
    (seen : List String) (d : DisplayedCitation),
    d ∈ displayLoop l seen → ∃ x, x ∈ l ∧ d.citId = x.2.1 := by
  intro l
  induction l with
  | nil =>
    intro seen d hd
    simp [displayLoop] at hd
  | cons e t ih =>
    intro seen d hd
    obtain ⟨n, cid, dat⟩ := e
    simp only [displayLoop] at hd
    split at hd
    · split at hd
      · obtain ⟨x, hx, he⟩ := ih _ d hd
        exact ⟨x, List.mem_cons_of_mem _ hx, he⟩
      · rcases List.mem_cons.mp hd with h | h
        · exact ⟨(n, cid, dat), List.mem_cons_self _ _, by rw [h]⟩
        · obtain ⟨x, hx, he⟩ := ih _ d h
          exact ⟨x, List.mem_cons_of_mem _ hx, he⟩
    · obtain ⟨x, hx, he⟩ := ih _ d hd
      exact ⟨x, List.mem_cons_of_mem _ hx, he⟩

/-- The mapped-citation branch of the display function only shows ids that are
keys of the citation mapping. -/
theorem displayMappedBranch_citId_ne {cm : List (String × Nat)}
    (eff : List (String × CitationData)) {X : String}
    (h : alookup cm X = none) :
    ∀ d ∈ displayMappedBranch cm eff, d.citId ≠ X := by
  intro d hd
  simp only [displayMappedBranch] at hd
  obtain ⟨x, hx, he⟩ := displayLoop_mem _ _ d hd
  obtain ⟨n, hn, hf⟩ := List.mem_filterMap.mp hx
  rw [he]
  cases h1 : firstKeyWithNumber cm n with
  | none =>
    have hf2 : (match firstKeyWithNumber cm n with
        | none => (none : Option (Nat × String × CitationData))
        | some cid =>
          match alookup eff cid with
          | some dd => some (n, cid, dd)
          | none => none) = some x := hf
    rw [h1] at hf2
    exact absurd hf2 (by simp)
  | some cid =>
    have hf2 : (match firstKeyWithNumber cm n with
        | none => (none : Option (Nat × String × CitationData))
        | some cid2 =>
          match alookup eff cid2 with
          | some dd =>
            some (n, cid2, dd)
          | none => none) = some x := hf
    rw [h1] at hf2
    have hf3 : (match alookup eff cid with
        | some dd => some (n, cid, dd)
        | none => (none : Option (Nat × String × CitationData))) = some x := hf2
    cases h2 : alookup eff cid with
    | none =>
      rw [h2] at hf3
      exact absurd hf3 (by simp)
    | some dd =>
      rw [h2] at hf3
      have hf4 : some (n, cid, dd) = some x := hf3
      injection hf4 with hf5
      have hcid : x.2.1 = cid := by
        rw [← hf5]
      rw [hcid]
      intro hc
      rw [hc] at h1
      exact firstKeyWithNumber_ne_of_none h n h1

/-- Every citation emitted by the streaming-citation fallback branch carries
an empty id. -/
theorem streamingFold_citId (cs : List StreamCitation) :
    ∀ (acc : List DisplayedCitation),
      (∀ d ∈ acc, d.citId = "") →
      ∀ d ∈ cs.foldl
        (fun (acc : List DisplayedCitation) c =>
          if c.citationType = "documentation" then
            acc ++ [⟨acc.length + 1, "", c.docTitle, c.docId⟩]
          else acc) acc,
        d.citId = "" := by
  induction cs with
  | nil =>
    intro acc hacc d hd
    exact hacc d hd
  | cons c t ih =>
    intro acc hacc d hd
    simp only [List.foldl_cons] at hd
    refine ih _ ?_ d hd
    intro d' hd'
    by_cases hc : c.citationType = "documentation"
    · simp only [hc, if_true, List.mem_append, List.mem_singleton] at hd'
      rcases hd' with h | h
      · exact hacc d' h
      · rw [h]
    · simp only [hc, if_false] at hd'
      exact hacc d' hd'

/-- Every citation in the streaming-fallback branch carries an empty id. -/
theorem displayStreamingBranch_citId (cs : List StreamCitation) :
    ∀ d ∈ displayStreamingBranch cs, d.citId = "" := by
  intro d hd
  simp only [displayStreamingBranch] at hd
  have hacc : ∀ d' ∈ ([] : List DisplayedCitation), d'.citId = "" := by
    intro d' hd'
    cases hd'
  exact streamingFold_citId cs [] hacc d hd

/-- The branch selection of the display function, abstracted over the chosen
mapping, tool-citation store and streaming list. -/
theorem displayCore_citId_ne (cm : List (String × Nat))
    (eff : List (String × CitationData)) (cs : List StreamCitation) (X : String)
    (hcm : alookup cm X = none) (hXne : X ≠ "") :
    ∀ d ∈ (if cm.isEmpty = false ∧ eff.isEmpty = false then
             displayMappedBranch cm eff
           else if cs.isEmpty = false then displayStreamingBranch cs else []),
      d.citId ≠ X := by
  intro d hd
  split at hd
  · exact displayMappedBranch_citId_ne _ hcm d hd
  · split at hd
    · rw [displayStreamingBranch_citId cs d hd]
      exact fun hc => hXne hc.symm
    · cases hd

/-- The post-completion block never shows an id that is absent from both the
request-scoped mapping and the legacy mapping (a nonempty `cs_`-style id). -/
theorem displayPostCompletion_citId_ne (sess : SessionState) (X : String)
    (hreq : alookup sess.citState.mapping X = none)
    (hleg : alookup sess.citationIdMapping X = none)
    (hXne : X ≠ "") :
    ∀ d ∈ displayPostCompletionCitations sess, d.citId ≠ X := by
  intro d hd
  have hcm : alookup
      (if sess.citState.mapping.isEmpty then sess.citationIdMapping
       else sess.citState.mapping) X = none := by
    split
    · exact hleg
    · exact hreq
  simp only [displayPostCompletionCitations] at hd
  exact displayCore_citId_ne _ _ _ X hcm hXne d hd

/-- Outcome of finalization when the completion pass raises `KeyError`: the
outer handler shows the error and no citations block is materialized. -/
theorem postLoopFinalize_displayed_keyErr (s : StreamState) (cit : CitState)
    (rend : ContentKey → Rendered) (acc : List (ContentKey × String))
    (k : ContentKey)
    (hdp : donePass s = PassResult.keyErr cit rend acc k) :
    (postLoopFinalize s).displayedCitations = [] := by
  rw [donePass] at hdp
  simp only [postLoopFinalize, donePass, hdp, markFailedOutput]

/-- Outcome of finalization when the completion pass succeeds: the citations
block is computed from the session holding the pass's citation state, further
advanced by the bot-text resolution when that text carries markup. -/
theorem postLoopFinalize_displayed_eq (s : StreamState) (o : PassOut)
    (hdp : donePass s = PassResult.ok o) :
    (postLoopFinalize s).displayedCitations =
      displayPostCompletionCitations
        { s.session with
          citState :=
            (if botHasMarkup s.botTextMessage then
              processCitationIdsInText s.session.toolResultCitations o.cit
                s.botTextMessage
             else (o.cit, s.botTextMessage)).1
          rendered := o.rendered } := by
  rw [donePass] at hdp
  simp only [postLoopFinalize, donePass, hdp]
  rw [handleMissingTableReferences_session]

/-- C7: a citation id registered from a tool-result event but never referenced
by a cite placeholder in any final text buffer of the request (and never
carried by a text-annotation event) is absent from the materialized
post-completion citations block. -/
theorem claim_C7_orphan_suppression
    (hdr : Option String) (millis : Nat) (sess : SessionState) (evs : List Event)
    (X : String) (dat : CitationData)
    (hX : startsWithStr X csMark = true)
    (hleg : alookup sess.citationIdMapping X = none)
    (hann : ∀ e ∈ evs, annotIdOf e ≠ some X)
    (hreg : alookup (runLoop (initStream hdr millis sess) evs).state.session.toolResultCitations
        X = some dat)
    (hbufs : ∀ p ∈ (runLoop (initStream hdr millis sess) evs).state.buffers,
        X ∉ citeMatches p.2)
    (hbot : X ∉ citeMatches
        (runLoop (initStream hdr millis sess) evs).state.botTextMessage) :
    ∀ d ∈ (streamEventsRealtime hdr millis sess evs).displayedCitations,
      d.citId ≠ X := by
  intro d hd
  have hXne : X ≠ "" := by
    intro h
    rw [h] at hX
    exact absurd hX (by decide)
  have hbufs2 : ∀ k c, (k, c) ∈ (runLoop (initStream hdr millis sess) evs).state.buffers →
      X ∉ citeMatches c := fun k c hmem => hbufs (k, c) hmem
  have hm0 : alookup (initStream hdr millis sess).session.citState.mapping X = none := rfl
  have hml : alookup
      (runLoop (initStream hdr millis sess) evs).state.session.citState.mapping X
        = none :=
    runLoop_citState_none X evs (initStream hdr millis sess) hm0 hann hbufs2
  have hlegF : alookup
      (runLoop (initStream hdr millis sess) evs).state.session.citationIdMapping X
        = none := by
    rw [runLoop_legacy]
    exact hleg
  cases hlr : runLoop (initStream hdr millis sess) evs with
  | failed sF msg =>
    have hnil : (streamEventsRealtime hdr millis sess evs).displayedCitations = [] := by
      simp only [streamEventsRealtime, hlr, markFailedOutput]
    rw [hnil] at hd
    cases hd
  | finished sF =>
    rw [hlr] at hml hlegF hbufs2 hbot
    have hml' : alookup sF.session.citState.mapping X = none := hml
    have hlegF' : alookup sF.session.citationIdMapping X = none := hlegF
    have hbufs' : ∀ k c, (k, c) ∈ sF.buffers → X ∉ citeMatches c := hbufs2
    have hbot' : X ∉ citeMatches sF.botTextMessage := hbot
    have hout : streamEventsRealtime hdr millis sess evs = postLoopFinalize sF := by
      simp only [streamEventsRealtime, hlr]
    rw [hout] at hd
    cases hdp : donePass sF with
    | keyErr cit rend acc k =>
      rw [postLoopFinalize_displayed_keyErr sF cit rend acc k hdp] at hd
      cases hd
    | ok o =>
      rw [postLoopFinalize_displayed_eq sF o hdp] at hd
      have halo : alookup o.cit.mapping X = none := by
        have h := citationPassGo_none sF.currentRequestId
          sF.session.toolResultCitations sF.session.contentMapKeys X
          sF.buffers sF.session.citState sF.session.rendered [] hml' hbufs'
        rw [donePass] at hdp
        rw [hdp] at h
        exact h
      refine displayPostCompletion_citId_ne _ X ?_ ?_ hXne d hd
      · show alookup
          (if botHasMarkup sF.botTextMessage then
            processCitationIdsInText sF.session.toolResultCitations o.cit
              sF.botTextMessage
           else (o.cit, sF.botTextMessage)).1.mapping X = none
        split
        · exact processText_none _ _ halo hbot'
        · exact halo
      · show alookup sF.session.citationIdMapping X = none
        exact hlegF'

/-- Concrete instance of C7: a search citation registered from a tool-result
event but never cited by a placeholder tag in any buffer is absent from the
displayed citations block. -/
theorem claim_C7_witness :
    ((streamEventsRealtime (some ("req7")) 0 emptySessionState
        [Event.toolResult ("tu1") ("search") ("success")
            [{ itemId := "cs_orph", docId := "http://y", docTitle := "Doc B" }] [],
         Event.textDelta 0 ("plain text")]).displayedCitations.all
      (fun d => d.citId != "cs_orph")) = true :=
  List.all_eq_true.mpr
    (fun d hd => bne_iff_ne.mpr
      (claim_C7_orphan_suppression (some ("req7")) 0 emptySessionState
        [Event.toolResult ("tu1") ("search") ("success")
            [{ itemId := "cs_orph", docId := "http://y", docTitle := "Doc B" }] [],
         Event.textDelta 0 ("plain text")]
        ("cs_orph") ⟨"cs_orph", "http://y", "Doc B"⟩
        (by decide) (by rfl) (by decide) (by decide) (by decide) (by decide) d hd))

end CortexSpec
